import Mathlib

/-!
# Verification of the arkparser binary decoding engine

A shallow embedding of the arkparser repository (ARK save-file decoder) in
Lean 4, together with theorems settling the specification claims about it.

The embedding follows the Python source files:
  * `arkparser/common/binary_reader.py`  — the positional byte reader;
  * `arkparser/common/types.py`          — `ArkName` parsing and formatting;
  * `arkparser/properties/base.py`       — name tables and property headers;
  * `arkparser/properties/primitives.py` — the primitive property readers;
  * `arkparser/properties/byte_property.py`, `arkparser/properties/compound.py`,
    `arkparser/structs/*`                — compound property and struct readers;
  * `arkparser/properties/registry.py`   — the property dispatch loop;
  * `arkparser/files/base.py`, `arkparser/files/world_save.py`,
    `arkparser/game_objects/*`           — file framing, object headers,
    error isolation and container linkage.

Byte buffers are modelled as `List Nat` (each entry a byte value `< 256`),
the reader as an explicit `(data, position)` pair, and Python exceptions as
an `Except` error type.  Machine integers are modelled as `Int` with explicit
two's-complement conversion; IEEE floats are carried as their raw bit
patterns (no claim computes with float arithmetic).  Recursive decoding
(property lists, nested structs) uses an explicit fuel parameter; all
theorems are conditioned on a successful decode, which is fuel-monotone.
-/

set_option maxHeartbeats 1000000
set_option maxRecDepth 8000
set_option linter.unusedVariables false

namespace ArkParser

/-! ## Errors

Python exception classes relevant to the embedded code:
`EndOfDataError` (raised by `read_bytes`/`slice`), `struct.error` (raised by
`struct.unpack` when the stream returned fewer bytes than the format needs),
`UnicodeDecodeError` (raised by `bytes.decode` on invalid UTF-16),
`ValueError` (raised by `BytesIO.seek` on a negative target and by the
world-save readers when no name table is supplied), and
`UnknownPropertyError` (raised by `read_property`).  `outOfFuel` is an
artefact of the fuel-indexed embedding; no theorem asserts it is reachable. -/

inductive DErr where
  | endOfData
  | structErr
  | unicodeErr
  | valueErr
  | unknownProperty (typeName : String)
  | outOfFuel
  deriving Repr, DecidableEq

/-- Byte buffers: each element is one byte (a `Nat` below 256). -/
abbrev Bytes := List Nat

/-- Result of a reader operation: the value plus the new reader position. -/
abbrev RRes (α : Type) := Except DErr (α × Nat)

/-! ## Decimal and hexadecimal formatting helpers

Models of Python's `str(int)` and `bytes.hex()` used by the placeholder
names, GUID strings and `ArkName` formatting. -/

/-- The ASCII digit character for `n < 10`. -/
def digitChar (n : Nat) : Char := Char.ofNat (48 + n)

/-- Structural worker for `natToDigits`: the fuel always suffices at the
call site, and keeps the definition reducible by the kernel. -/
def natToDigitsAux : Nat → Nat → List Char → List Char
  | 0, _, acc => acc
  | fuel + 1, n, acc =>
      if n < 10 then digitChar n :: acc
      else natToDigitsAux fuel (n / 10) (digitChar (n % 10) :: acc)

/-- Decimal digits of `n`, most significant first (no leading zeros). -/
def natToDigits (n : Nat) : List Char := natToDigitsAux (n + 1) n []

/-- Decimal representation of a natural number, like Python `str(n)`. -/
def natRepr (n : Nat) : String := ⟨natToDigits n⟩

/-- Decimal representation of an integer, like Python `str(i)`. -/
def intRepr (i : Int) : String :=
  if i < 0 then "-" ++ natRepr i.natAbs else natRepr i.toNat

/-- Lower-case hex digit for `n < 16`. -/
def hexChar (n : Nat) : Char :=
  if n < 10 then digitChar n else Char.ofNat (87 + n)

/-- Two lower-case hex digits of one byte. -/
def byteHex (b : Nat) : String := ⟨[hexChar (b / 16 % 16), hexChar (b % 16)]⟩

/-- Python `bytes.hex()`. -/
def bytesHex (bs : Bytes) : String := String.join (bs.map byteHex)

/-- Python `str(UUID(bytes_le=bs))` for a 16-byte buffer: the first three
fields are byte-swapped (little-endian GUID layout), then formatted in the
canonical 8-4-4-4-12 shape. -/
def guidStrOfBytes (bs : Bytes) : String :=
  match bs with
  | [b0, b1, b2, b3, b4, b5, b6, b7, b8, b9, b10, b11, b12, b13, b14, b15] =>
      bytesHex [b3, b2, b1, b0] ++ "-" ++ bytesHex [b5, b4] ++ "-" ++
      bytesHex [b7, b6] ++ "-" ++ bytesHex [b8, b9] ++ "-" ++
      bytesHex [b10, b11, b12, b13, b14, b15]
  | _ => ""

/-! ## Text decoding -/

/-- Latin-1 maps each byte to the code point of the same value. -/
def latin1Char (b : Nat) : Char := Char.ofNat b

/-- Python `bytes.decode("latin-1")`. -/
def latin1Str (bs : Bytes) : String := ⟨bs.map latin1Char⟩

/-- Group a byte list into little-endian 16-bit code units.
`none` on odd length (Python raises on a truncated final unit). -/
def utf16Units : Bytes → Option (List Nat)
  | [] => some []
  | b0 :: b1 :: rest => (utf16Units rest).map (fun us => (b0 + 256 * b1) :: us)
  | [_] => none

/-- Strict UTF-16 decoding of a code-unit list, as Python's
`decode("utf-16-le")`: surrogate pairs combine, lone surrogates fail. -/
def utf16DecodeUnits : List Nat → Option (List Char)
  | [] => some []
  | u :: rest =>
      if u < 0xD800 ∨ 0xE000 ≤ u then
        (utf16DecodeUnits rest).map (fun cs => Char.ofNat u :: cs)
      else if u < 0xDC00 then
        match rest with
        | lo :: rest2 =>
            if 0xDC00 ≤ lo ∧ lo < 0xE000 then
              (utf16DecodeUnits rest2).map
                (fun cs => Char.ofNat (0x10000 + (u - 0xD800) * 0x400 + (lo - 0xDC00)) :: cs)
            else none
        | [] => none
      else none

/-! ## BinaryReader (`arkparser/common/binary_reader.py`)

The Python class wraps a `BytesIO`; we carry the buffer and the position
explicitly.  `remaining` is `size - position` and may be negative, since
`seek` past the end is legal. -/

/-- Model of `BinaryReader.remaining` (may be negative after a seek past the end). -/
def remainingI (data : Bytes) (pos : Nat) : Int := (data.length : Int) - pos

/-- The raw-stream read used by the fixed-width primitive readers:
`struct.unpack(fmt, self._stream.read(n))`.  A short read makes
`struct.unpack` raise `struct.error`. -/
def readExact (n : Nat) (data : Bytes) (pos : Nat) : RRes Bytes :=
  if pos + n ≤ data.length then .ok ((data.drop pos).take n, pos + n)
  else .error .structErr

/-- Model of `BinaryReader.read_bytes`: explicit bounds check raising
`EndOfDataError` when `count > remaining`. -/
def readBytes (n : Nat) (data : Bytes) (pos : Nat) : RRes Bytes :=
  if (n : Int) > remainingI data pos then .error .endOfData
  else .ok ((data.drop pos).take n, pos + n)

/-- Model of `BinaryReader.slice`: same bounds check as `read_bytes`, returning the
sliced bytes as a fresh sub-buffer while the parent position advances. -/
def slice (n : Nat) (data : Bytes) (pos : Nat) : RRes Bytes :=
  if (n : Int) > remainingI data pos then .error .endOfData
  else .ok ((data.drop pos).take n, pos + n)

/-- Little-endian value of a byte list. -/
def leVal (bs : Bytes) : Nat := bs.foldr (fun b acc => b + 256 * acc) 0

/-- Two's-complement reinterpretation of a `bits`-wide unsigned value. -/
def toSigned (bits : Nat) (n : Nat) : Int :=
  if (n : Int) < 2 ^ (bits - 1) then (n : Int) else (n : Int) - 2 ^ bits

/-- Shared body of `read_uintN`: `struct.unpack("<...", stream.read(n))`. -/
def readULE (n : Nat) (data : Bytes) (pos : Nat) : RRes Nat :=
  (readExact n data pos).map (fun r => (leVal r.1, r.2))

/-- Model of `BinaryReader.read_uint8`. -/
def readU8 (data : Bytes) (pos : Nat) : RRes Nat := readULE 1 data pos

/-- Model of `BinaryReader.read_int8`. -/
def readI8 (data : Bytes) (pos : Nat) : RRes Int :=
  (readULE 1 data pos).map (fun r => (toSigned 8 r.1, r.2))

/-- Model of `BinaryReader.read_uint16`. -/
def readU16 (data : Bytes) (pos : Nat) : RRes Nat := readULE 2 data pos

/-- Model of `BinaryReader.read_int16`. -/
def readI16 (data : Bytes) (pos : Nat) : RRes Int :=
  (readULE 2 data pos).map (fun r => (toSigned 16 r.1, r.2))

/-- Model of `BinaryReader.read_uint32`. -/
def readU32 (data : Bytes) (pos : Nat) : RRes Nat := readULE 4 data pos

/-- Model of `BinaryReader.read_int32`. -/
def readI32 (data : Bytes) (pos : Nat) : RRes Int :=
  (readULE 4 data pos).map (fun r => (toSigned 32 r.1, r.2))

/-- Model of `BinaryReader.read_uint64`. -/
def readU64 (data : Bytes) (pos : Nat) : RRes Nat := readULE 8 data pos

/-- Model of `BinaryReader.read_int64`. -/
def readI64 (data : Bytes) (pos : Nat) : RRes Int :=
  (readULE 8 data pos).map (fun r => (toSigned 64 r.1, r.2))

/-- Model of `BinaryReader.read_float`, carried as the raw 32 bits (no claim
computes with float values). -/
def readF32 (data : Bytes) (pos : Nat) : RRes Nat := readULE 4 data pos

/-- Model of `BinaryReader.read_double`, carried as the raw 64 bits. -/
def readF64 (data : Bytes) (pos : Nat) : RRes Nat := readULE 8 data pos

/-- Model of `BinaryReader.skip`: a relative seek.  `BytesIO.seek` raises
`ValueError` on a negative resulting position and otherwise permits any
target, including past the end. -/
def skipR (n : Int) (data : Bytes) (pos : Nat) : RRes Unit :=
  if (pos : Int) + n < 0 then .error .valueErr
  else .ok ((), ((pos : Int) + n).toNat)

/-- Model of `BinaryReader.peek_bytes`: `read_bytes(min(count, remaining))` with the
position restored.  Only used under a `remaining > 0` guard. -/
def peekBytes (n : Nat) (data : Bytes) (pos : Nat) : Bytes :=
  (data.drop pos).take (min n (data.length - pos))

/-- Model of `BinaryReader.read_string`: signed int32 length prefix; positive means
Latin-1 bytes with a trailing null, negative means UTF-16-LE code units
with a trailing two-byte null, with special cases for 0, 1 and -1. -/
def readString (data : Bytes) (pos : Nat) : Except DErr (String × Nat) := do
  let (len, p1) ← readI32 data pos
  if len = 0 then
    .ok ("", p1)
  else if len = 1 then do
    let (_, p2) ← skipR 1 data p1
    .ok ("", p2)
  else if len = -1 then do
    let (_, p2) ← skipR 2 data p1
    .ok ("", p2)
  else if len < 0 then do
    let byteCount := len.natAbs * 2
    let (bs, p2) ← readBytes byteCount data p1
    match utf16Units bs.dropLast.dropLast with
    | none => .error .unicodeErr
    | some us =>
        match utf16DecodeUnits us with
        | none => .error .unicodeErr
        | some cs => .ok (String.mk cs, p2)
  else do
    let (bs, p2) ← readBytes len.toNat data p1
    .ok (latin1Str bs.dropLast, p2)

/-- Model of `BinaryReader.read_guid`: sixteen bytes, rendered as the canonical
UUID string (the Python code immediately does `str(guid)` wherever the
value is kept). -/
def readGuidStr (data : Bytes) (pos : Nat) : RRes String :=
  (readBytes 16 data pos).map (fun r => (guidStrOfBytes r.1, r.2))

/-! ## ArkName (`arkparser/common/types.py`)

An Unreal `FName`: a base string plus an instance index.  The Python field
`instance` is a Lean keyword, so it is called `inst` here. -/

structure ArkName where
  name : String
  inst : Nat := 0
  deriving Repr, DecidableEq

/-- Value of a list of decimal digit characters, like Python `int(s)`
restricted to ASCII digits (leading zeros allowed). -/
def digitsToNat (l : List Char) : Nat :=
  l.foldl (fun a c => a * 10 + (c.toNat - 48)) 0

/-- Model of `ArkName.from_string` and its regex `^(.+)_(\d+)$`.  The regex
matches exactly when the string ends in an underscore followed by a
non-empty run of digits, with a non-empty prefix; backtracking of the
greedy `(.+)` places the split at the last underscore whose suffix is all
digits, i.e. immediately before the maximal trailing digit run.  Digits are
modelled as ASCII `0`-`9`. -/
def arkNameFromString (value : String) : ArkName :=
  if value = "" then ⟨"", 0⟩
  else
    let rev := value.toList.reverse
    let ds := rev.takeWhile (fun c => c.isDigit)
    match rev.drop ds.length with
    | '_' :: restRev =>
        if ds.isEmpty ∨ restRev.isEmpty then ⟨value, 0⟩
        else ⟨⟨restRev.reverse⟩, digitsToNat ds.reverse + 1⟩
    | _ => ⟨value, 0⟩

/-- Model of `ArkName.__str__`: the base name, with `_(inst-1)` appended
when the instance is positive. -/
def arkNameToString (n : ArkName) : String :=
  if n.inst = 0 then n.name else n.name ++ "_" ++ natRepr (n.inst - 1)

/-! ## Name tables and property headers (`arkparser/properties/base.py`) -/

/-- The `NameTable` union from `properties/base.py`:
`list[str] | dict[int, str] | None`. -/
inductive NameTable where
  | inline : NameTable
  | list (entries : List String) : NameTable
  | dict (entries : List (Int × String)) : NameTable
  deriving Repr, DecidableEq

/-- Lookup in the association-list model of a Python `dict[int, str]`
(later insertions for the same key overwrite earlier ones). -/
def dictGet (m : List (Int × String)) (k : Int) : Option String :=
  m.foldl (fun acc p => if p.1 = k then some p.2 else acc) none

/-- Model of `_read_name_from_list_table`: int32 1-based index; an
out-of-range index returns a placeholder immediately (before the instance
int32 is read); otherwise the int32 instance follows and a positive value
appends `_(instance-1)`. -/
def readNameFromListTable (table : List String) (data : Bytes) (pos : Nat) :
    Except DErr (String × Nat) := do
  let (index, p1) ← readI32 data pos
  let internal := index - 1
  if internal < 0 ∨ (table.length : Int) ≤ internal then
    .ok ("__INVALID_NAME_INDEX_" ++ intRepr index ++ "__", p1)
  else do
    let name := table.getD internal.toNat ""
    let (instV, p2) ← readI32 data p1
    if 0 < instV then .ok (name ++ "_" ++ intRepr (instV - 1), p2)
    else .ok (name, p2)

/-- Model of `_read_name_from_dict_table`: int32 hash key; an absent key
returns a placeholder immediately (before the instance int32 is read). -/
def readNameFromDictTable (table : List (Int × String)) (data : Bytes) (pos : Nat) :
    Except DErr (String × Nat) := do
  let (nameId, p1) ← readI32 data pos
  match dictGet table nameId with
  | none => .ok ("__UNKNOWN_NAME_" ++ intRepr nameId ++ "__", p1)
  | some name => do
      let (instV, p2) ← readI32 data p1
      if 0 < instV then .ok (name ++ "_" ++ intRepr (instV - 1), p2)
      else .ok (name, p2)

/-- Model of `read_name`: dispatch on the name-table kind. -/
def readName (nt : NameTable) (data : Bytes) (pos : Nat) :
    Except DErr (String × Nat) :=
  match nt with
  | .inline => readString data pos
  | .dict t => readNameFromDictTable t data pos
  | .list t => readNameFromListTable t data pos

/-- The `PropertyHeader` dataclass. -/
structure PropertyHeader where
  name : String
  typeName : String
  dataSize : Int
  index : Int
  deriving Repr, DecidableEq

/-- Model of `_read_worldsave_property_header`: `(name id, name instance)`
pair, terminator check on the resolved name, then `(type id, type
instance)` pair.  `data_size` is returned as 0; the per-type readers
consume their own size fields. -/
def readWorldsavePropertyHeader (table : List (Int × String)) (data : Bytes) (pos : Nat) :
    Except DErr (Option PropertyHeader × Nat) := do
  let (nameId, p1) ← readI32 data pos
  let (nameInst, p2) ← readI32 data p1
  let name := (dictGet table nameId).getD ("__UNKNOWN_NAME_" ++ intRepr nameId ++ "__")
  let index : Int := if 0 < nameInst then nameInst - 1 else 0
  if name = "None" then .ok (none, p2)
  else do
    let (typeId, p3) ← readI32 data p2
    let (_typeInst, p4) ← readI32 data p3
    let typeName := (dictGet table typeId).getD ("__UNKNOWN_TYPE_" ++ intRepr typeId ++ "__")
    .ok (some ⟨name, typeName, 0, index⟩, p4)

/-- Model of `read_property_header`: the world-save header requires a dict
name table (`ValueError` otherwise); in the other framings the name is
read first and `"None"` or the empty string terminates the list before
the type name, data size and index are read. -/
def readPropertyHeader (isAsa : Bool) (nt : NameTable) (ws : Bool)
    (data : Bytes) (pos : Nat) : Except DErr (Option PropertyHeader × Nat) :=
  if ws then
    match nt with
    | .dict t => readWorldsavePropertyHeader t data pos
    | _ => .error .valueErr
  else do
    let (name, p1) ← readName nt data pos
    if name = "None" ∨ name = "" then .ok (none, p1)
    else do
      let (typeName, p2) ← readName nt data p1
      let (dataSize, p3) ← readI32 data p2
      let (index, p4) ← readI32 data p3
      .ok (some ⟨name, typeName, dataSize, index⟩, p4)

/-! ## Decoded values

Decoded properties, struct values and array elements are represented by one
sum type.  A decoded property is a `vProp` node carrying the fields of the
Python `Property` dataclasses `(name, type_name, index, value)`; Python
dicts are association lists of `vPair` nodes; a Python tuple tag such as
`("id", 5)` becomes `vTag "id" (vInt 5)`; native structs and property-list
structs keep their struct-type string. -/

inductive PVal where
  | vInt (i : Int)
  | vBits (bits : Nat)
  | vBool (b : Bool)
  | vStr (s : String)
  | vBytes (bs : Bytes)
  | vNull
  | vTag (tag : String) (v : PVal)
  | vList (vs : List PVal)
  | vPair (key : String) (v : PVal)
  | vDict (entries : List PVal)
  | vProp (name : String) (typeName : String) (index : Int) (value : PVal)
  | vStructNative (structType : String) (fields : List PVal)
  | vStructProps (structType : String) (props : List PVal)
  deriving Repr

/-- Name of a decoded property node (`Property.name`). -/
def pvalPropName : PVal → Option String
  | .vProp n _ _ _ => some n
  | _ => none

/-- Value of a decoded property node (`Property.value`); identity
otherwise. -/
def pvalPropValue : PVal → PVal
  | .vProp _ _ _ v => v
  | v => v

/-- Index of a decoded property node (`Property.index`). -/
def pvalPropIndex : PVal → Int
  | .vProp _ _ i _ => i
  | _ => 0

/-- Python dict assignment `d[k] = v` on an association list of `vPair`
nodes: replace in place if the key exists, else append. -/
def pvalDictInsert : List PVal → String → PVal → List PVal
  | [], k, v => [.vPair k v]
  | .vPair k0 v0 :: rest, k, v =>
      if k0 = k then .vPair k v :: rest
      else .vPair k0 v0 :: pvalDictInsert rest k v
  | other :: rest, k, v => other :: pvalDictInsert rest k v

/-! ## Primitive property readers (`arkparser/properties/primitives.py`) -/

/-- Model of `_read_worldsave_simple_prefix`: 4 padding bytes, int32 data
size, one flag byte; if bit 0 of the flag is set an int32 array index
follows, otherwise the index is 0.  Returns `(data_size, flag,
array_index)`. -/
def readWorldsaveSimpleHeader (data : Bytes) (pos : Nat) :
    Except DErr ((Int × Nat × Int) × Nat) := do
  let (_padding, p1) ← readI32 data pos
  let (dataSize, p2) ← readI32 data p1
  let (flag, p3) ← readU8 data p2
  if flag &&& 0x01 ≠ 0 then do
    let (arrayIndex, p4) ← readI32 data p3
    .ok ((dataSize, flag, arrayIndex), p4)
  else
    .ok ((dataSize, flag, 0), p3)

/-- Shared shape of the thirteen near-identical primitive `read` methods
(`Int8Property.read`, `IntProperty.read`, `FloatProperty.read`,
`StrProperty.read`, ...): world-save prefix, or ASA extra byte with
optional index override, or the bare value in ASE. -/
def readPrimitiveProp (readVal : Bytes → Nat → Except DErr (PVal × Nat))
    (typeName : String) (hdr : PropertyHeader) (isAsa ws : Bool)
    (data : Bytes) (pos : Nat) : Except DErr (PVal × Nat) := do
  if ws then do
    let ((_ds, _flag, idx), p1) ← readWorldsaveSimpleHeader data pos
    let (v, p2) ← readVal data p1
    .ok (.vProp hdr.name typeName idx v, p2)
  else if isAsa then do
    let (extra, p1) ← readU8 data pos
    if extra &&& 0x01 ≠ 0 then do
      let (idx, p2) ← readI32 data p1
      let (v, p3) ← readVal data p2
      .ok (.vProp hdr.name typeName idx v, p3)
    else do
      let (v, p2) ← readVal data p1
      .ok (.vProp hdr.name typeName hdr.index v, p2)
  else do
    let (v, p1) ← readVal data pos
    .ok (.vProp hdr.name typeName hdr.index v, p1)

/-- Model of `Int8Property.read`. -/
def readInt8Prop : PropertyHeader → Bool → Bool → Bytes → Nat → Except DErr (PVal × Nat) :=
  readPrimitiveProp (fun d p => (readI8 d p).map (fun r => (.vInt r.1, r.2))) "Int8Property"

/-- Model of `Int16Property.read`. -/
def readInt16Prop : PropertyHeader → Bool → Bool → Bytes → Nat → Except DErr (PVal × Nat) :=
  readPrimitiveProp (fun d p => (readI16 d p).map (fun r => (.vInt r.1, r.2))) "Int16Property"

/-- Model of `IntProperty.read`. -/
def readIntProp : PropertyHeader → Bool → Bool → Bytes → Nat → Except DErr (PVal × Nat) :=
  readPrimitiveProp (fun d p => (readI32 d p).map (fun r => (.vInt r.1, r.2))) "IntProperty"

/-- Model of `Int64Property.read`. -/
def readInt64Prop : PropertyHeader → Bool → Bool → Bytes → Nat → Except DErr (PVal × Nat) :=
  readPrimitiveProp (fun d p => (readI64 d p).map (fun r => (.vInt r.1, r.2))) "Int64Property"

/-- Model of `UInt16Property.read`. -/
def readUInt16Prop : PropertyHeader → Bool → Bool → Bytes → Nat → Except DErr (PVal × Nat) :=
  readPrimitiveProp (fun d p => (readU16 d p).map (fun r => (.vInt (r.1 : Int), r.2))) "UInt16Property"

/-- Model of `UInt32Property.read`. -/
def readUInt32Prop : PropertyHeader → Bool → Bool → Bytes → Nat → Except DErr (PVal × Nat) :=
  readPrimitiveProp (fun d p => (readU32 d p).map (fun r => (.vInt (r.1 : Int), r.2))) "UInt32Property"

/-- Model of `UInt64Property.read`. -/
def readUInt64Prop : PropertyHeader → Bool → Bool → Bytes → Nat → Except DErr (PVal × Nat) :=
  readPrimitiveProp (fun d p => (readU64 d p).map (fun r => (.vInt (r.1 : Int), r.2))) "UInt64Property"

/-- Model of `FloatProperty.read` (value kept as raw bits). -/
def readFloatProp : PropertyHeader → Bool → Bool → Bytes → Nat → Except DErr (PVal × Nat) :=
  readPrimitiveProp (fun d p => (readF32 d p).map (fun r => (.vBits r.1, r.2))) "FloatProperty"

/-- Model of `DoubleProperty.read` (value kept as raw bits). -/
def readDoubleProp : PropertyHeader → Bool → Bool → Bytes → Nat → Except DErr (PVal × Nat) :=
  readPrimitiveProp (fun d p => (readF64 d p).map (fun r => (.vBits r.1, r.2))) "DoubleProperty"

/-- Model of `StrProperty.read`. -/
def readStrProp : PropertyHeader → Bool → Bool → Bytes → Nat → Except DErr (PVal × Nat) :=
  readPrimitiveProp (fun d p => (readString d p).map (fun r => (.vStr r.1, r.2))) "StrProperty"

/-- Model of `BoolProperty.read`: in the world-save framing the value is
bit 4 (`0x10`) of the flag byte of the simple prefix and the index is the
optional array index; otherwise one byte, non-zero meaning true. -/
def readBoolProp (hdr : PropertyHeader) (isAsa ws : Bool)
    (data : Bytes) (pos : Nat) : Except DErr (PVal × Nat) := do
  if ws then do
    let ((_ds, flag, arrIdx), p1) ← readWorldsaveSimpleHeader data pos
    .ok (.vProp hdr.name "BoolProperty" arrIdx (.vBool (flag &&& 0x10 ≠ 0)), p1)
  else if isAsa then do
    let (extra, p1) ← readU8 data pos
    .ok (.vProp hdr.name "BoolProperty" hdr.index (.vBool (extra ≠ 0)), p1)
  else do
    let (b, p1) ← readU8 data pos
    .ok (.vProp hdr.name "BoolProperty" hdr.index (.vBool (b ≠ 0)), p1)

/-- Resolution of a `(key, instance)` pair against a dict table inline in
several world-save readers: `table.get(id, "__UNKNOWN_{id}__")` with
`_(instance-1)` appended when the instance is positive. -/
def wsLookupName (table : List (Int × String)) (nameId : Int) (nameInst : Int) : String :=
  let base := (dictGet table nameId).getD ("__UNKNOWN_" ++ intRepr nameId ++ "__")
  if 0 < nameInst then base ++ "_" ++ intRepr (nameInst - 1) else base

/-- Model of `NameProperty.read`.  In the world-save framing the value is a
`(key, instance)` pair resolved against the dict table when one is present
and non-empty (Python truthiness), else an inline string. -/
def readNameProp (hdr : PropertyHeader) (isAsa ws : Bool) (nt : NameTable)
    (data : Bytes) (pos : Nat) : Except DErr (PVal × Nat) := do
  if ws then do
    let ((_ds, _flag, idx), p1) ← readWorldsaveSimpleHeader data pos
    match nt with
    | .dict t =>
        if t.isEmpty then do
          let (v, p2) ← readString data p1
          .ok (.vProp hdr.name "NameProperty" idx (.vStr v), p2)
        else do
          let (nameId, p2) ← readI32 data p1
          let (nameInst, p3) ← readI32 data p2
          .ok (.vProp hdr.name "NameProperty" idx (.vStr (wsLookupName t nameId nameInst)), p3)
    | _ => do
        let (v, p2) ← readString data p1
        .ok (.vProp hdr.name "NameProperty" idx (.vStr v), p2)
  else if isAsa then do
    let (extra, p1) ← readU8 data pos
    if extra &&& 0x01 ≠ 0 then do
      let (idx, p2) ← readI32 data p1
      let (v, p3) ← readString data p2
      .ok (.vProp hdr.name "NameProperty" idx (.vStr v), p3)
    else do
      let (v, p2) ← readString data p1
      .ok (.vProp hdr.name "NameProperty" hdr.index (.vStr v), p2)
  else do
    let (v, p1) ← readName nt data pos
    .ok (.vProp hdr.name "NameProperty" hdr.index (.vStr v), p1)

/-- Model of `ObjectProperty.read`.  Object references are represented as
`vNull`, `vTag "id" (vInt i)` or `vTag "name" (vStr s)` mirroring the
`_object_id` / `_object_name` fields. -/
def readObjectProp (hdr : PropertyHeader) (isAsa ws : Bool) (nt : NameTable)
    (data : Bytes) (pos : Nat) : Except DErr (PVal × Nat) := do
  if ws then do
    let ((_ds, _flag, _idx0), p1) ← readWorldsaveSimpleHeader data pos
    let idx := hdr.index
    let (marker, p2) ← readU16 data p1
    if marker = 1 then do
      let (nameId, p3) ← readI32 data p2
      let (nameInst, p4) ← readI32 data p3
      let refName :=
        match nt with
        | .dict t =>
            if t.isEmpty then "__UNKNOWN_" ++ intRepr nameId ++ "__"
            else (dictGet t nameId).getD ("__UNKNOWN_" ++ intRepr nameId ++ "__")
        | _ => "__UNKNOWN_" ++ intRepr nameId ++ "__"
      let refName := if 0 < nameInst then refName ++ "_" ++ intRepr (nameInst - 1) else refName
      .ok (.vProp hdr.name "ObjectProperty" idx (.vTag "name" (.vStr refName)), p4)
    else do
      let (guidBytes, p3) ← readBytes 16 data p2
      if guidBytes.all (· = 0) then
        .ok (.vProp hdr.name "ObjectProperty" idx .vNull, p3)
      else
        .ok (.vProp hdr.name "ObjectProperty" idx (.vTag "name" (.vStr (guidStrOfBytes guidBytes))), p3)
  else if isAsa then do
    let (extra, p1) ← readU8 data pos
    let (idx, p2) ←
      if extra &&& 0x01 ≠ 0 then readI32 data p1
      else .ok (hdr.index, p1)
    let (existsFlag, p3) ← readI32 data p2
    let dataSize := if hdr.dataSize = 0 then hdr.index else hdr.dataSize
    if existsFlag = 1 then
      if 5 < dataSize then do
        let (path, p4) ← readString data p3
        .ok (.vProp hdr.name "ObjectProperty" idx (.vTag "name" (.vStr path)), p4)
      else
        .ok (.vProp hdr.name "ObjectProperty" idx .vNull, p3)
    else if existsFlag = -1 then
      .ok (.vProp hdr.name "ObjectProperty" idx .vNull, p3)
    else if existsFlag = 0 then do
      let (_marker, p4) ← readI32 data p3
      .ok (.vProp hdr.name "ObjectProperty" idx .vNull, p4)
    else
      .ok (.vProp hdr.name "ObjectProperty" idx .vNull, p3)
  else
    if 8 ≤ hdr.dataSize then do
      let (refType, p1) ← readI32 data pos
      if refType = 0 then do
        let (objId, p2) ← readI32 data p1
        .ok (.vProp hdr.name "ObjectProperty" hdr.index (.vTag "id" (.vInt objId)), p2)
      else if refType = 1 then do
        let (nameValue, p2) ← readName nt data p1
        .ok (.vProp hdr.name "ObjectProperty" hdr.index (.vTag "name" (.vStr nameValue)), p2)
      else do
        let (_, p1b) ← skipR (-4) data p1
        let (nameValue, p2) ← readName nt data p1b
        .ok (.vProp hdr.name "ObjectProperty" hdr.index (.vTag "name" (.vStr nameValue)), p2)
    else if hdr.dataSize = 4 then do
      let (objId, p1) ← readI32 data pos
      .ok (.vProp hdr.name "ObjectProperty" hdr.index (.vTag "id" (.vInt objId)), p1)
    else do
      let (_, p1) ← skipR hdr.dataSize data pos
      .ok (.vProp hdr.name "ObjectProperty" hdr.index .vNull, p1)

/-- Model of `SoftObjectProperty.read`.  The value mirrors the
`{"path": ..., "name": ...}` dict. -/
def readSoftObjectProp (hdr : PropertyHeader) (isAsa ws : Bool) (nt : NameTable)
    (data : Bytes) (pos : Nat) : Except DErr (PVal × Nat) := do
  if ws then do
    let ((_ds, _flag, idx), p1) ← readWorldsaveSimpleHeader data pos
    let (path, p2) ←
      match nt with
      | .dict t =>
          if t.isEmpty then readString data p1
          else readName (.dict t) data p1
      | _ => readString data p1
    let (_padding, p3) ← readI32 data p2
    .ok (.vProp hdr.name "SoftObjectProperty" idx
          (.vDict [.vPair "path" (.vStr path), .vPair "name" (.vStr "")]), p3)
  else if isAsa then do
    let (extra, p1) ← readU8 data pos
    let (idx, p2) ←
      if extra &&& 0x01 ≠ 0 then readI32 data p1
      else .ok (hdr.index, p1)
    let (path, p3) ← readString data p2
    let (subPath, p4) ← readString data p3
    let (_padding, p5) ← readI32 data p4
    .ok (.vProp hdr.name "SoftObjectProperty" idx
          (.vDict [.vPair "path" (.vStr path), .vPair "name" (.vStr subPath)]), p5)
  else do
    let (path, p1) ← readString data pos
    let (subPath, p2) ← readString data p1
    .ok (.vProp hdr.name "SoftObjectProperty" hdr.index
          (.vDict [.vPair "path" (.vStr path), .vPair "name" (.vStr subPath)]), p2)

/-- Model of `ByteProperty.read` (`arkparser/properties/byte_property.py`).
The value mirrors the `(enum_name, byte-or-enum-value)` fields as
`vPair enum_name inner`. -/
def readByteProp (hdr : PropertyHeader) (isAsa ws : Bool) (nt : NameTable)
    (data : Bytes) (pos : Nat) : Except DErr (PVal × Nat) := do
  if ws then do
    let (marker, p1) ← readI32 data pos
    if marker = 0 then do
      let (_ds, p2) ← readI32 data p1
      let (flag, p3) ← readU8 data p2
      let (_, p4) ←
        if flag &&& 0x01 ≠ 0 then (readI32 data p3).map (fun r => ((), r.2))
        else .ok ((), p3)
      let (byteValue, p5) ← readU8 data p4
      .ok (.vProp hdr.name "ByteProperty" hdr.index (.vPair "None" (.vInt byteValue)), p5)
    else
      match nt with
      | .dict t =>
          if t.isEmpty then .error .valueErr
          else do
            let (enumTypeId, p2) ← readI32 data p1
            let (_enumTypeInst, p3) ← readI32 data p2
            let enumTypeName := (dictGet t enumTypeId).getD ("__UNKNOWN_" ++ intRepr enumTypeId ++ "__")
            let (_marker2, p4) ← readI32 data p3
            let (_blueprintId, p5) ← readI32 data p4
            let (_blueprintInst, p6) ← readI32 data p5
            let (_zeros, p7) ← readI32 data p6
            let (_ds, p8) ← readI32 data p7
            let (_flag, p9) ← readU8 data p8
            let (enumValueId, p10) ← readI32 data p9
            let (enumValueInst, p11) ← readI32 data p10
            let enumValue := wsLookupName t enumValueId enumValueInst
            .ok (.vProp hdr.name "ByteProperty" hdr.index
                  (.vPair enumTypeName (.vStr enumValue)), p11)
      | _ => .error .valueErr
  else if isAsa then do
    let enumNameLen := hdr.index
    if enumNameLen = 1 then do
      let (extra, p1) ← readU8 data pos
      let (idx, p2) ←
        if extra &&& 0x01 ≠ 0 then readI32 data p1
        else .ok ((0 : Int), p1)
      let (byteValue, p3) ← readU8 data p2
      .ok (.vProp hdr.name "ByteProperty" idx (.vPair "None" (.vInt byteValue)), p3)
    else do
      let (enumNameBytes, p1) ← readBytes enumNameLen.toNat data pos
      let enumName := latin1Str enumNameBytes.dropLast
      let (_extra1, p2) ← readI32 data p1
      let (_blueprintPath, p3) ← readString data p2
      let (_zeros, p4) ← readI32 data p3
      let (_ds, p5) ← readI32 data p4
      let (extra, p6) ← readU8 data p5
      let (idx, p7) ←
        if extra &&& 0x01 ≠ 0 then readI32 data p6
        else .ok ((0 : Int), p6)
      let (enumValue, p8) ← readString data p7
      .ok (.vProp hdr.name "ByteProperty" idx (.vPair enumName (.vStr enumValue)), p8)
  else do
    let (enumName, p1) ← readName nt data pos
    if enumName = "None" then do
      let (byteValue, p2) ← readU8 data p1
      .ok (.vProp hdr.name "ByteProperty" hdr.index (.vPair enumName (.vInt byteValue)), p2)
    else do
      let (enumValue, p2) ← readName nt data p1
      .ok (.vProp hdr.name "ByteProperty" hdr.index (.vPair enumName (.vStr enumValue)), p2)

/-! ## Native structs (`arkparser/structs/`)

Native struct values are kept in `to_dict` form (field order and keys as
produced by each dataclass's `to_dict`), since that is the shape the
compound readers store. -/

/-- The keys of `STRUCT_REGISTRY` in `arkparser/structs/registry.py`. -/
def structRegistryNames : List String :=
  ["Vector", "Vector2D", "Rotator", "Quat", "IntPoint", "IntVector",
   "Color", "LinearColor", "UniqueNetIdRepl", "Guid", "CustomItemDataRef"]

/-- The `ARRAY_NAME_TO_STRUCT_TYPE` table in `arkparser/structs/registry.py`. -/
def arrayNameToStructType (arrayName : String) : Option String :=
  if arrayName = "CustomColors" then some "Color"
  else if arrayName = "CustomColours_60_7D3267C846B277953C0C41AEBD54FBCB" then some "LinearColor"
  else none

/-- Read `n` float32 or float64 fields (ASE vs ASA width switch shared by
the vector-like structs). -/
def readFloatFields (wide : Bool) (keys : List String) (data : Bytes) (pos : Nat) :
    Except DErr (List PVal × Nat) :=
  match keys with
  | [] => .ok ([], pos)
  | k :: rest => do
      let (v, p1) ← if wide then readF64 data pos else readF32 data pos
      let (vs, p2) ← readFloatFields wide rest data p1
      .ok (.vPair k (.vBits v) :: vs, p2)

/-- Model of the native struct `read` classmethods in
`arkparser/structs/vectors.py`, `colors.py` and `misc.py`, dispatched by
struct-type string exactly as `read_struct` does via `STRUCT_REGISTRY`. -/
def readNativeStruct (structType : String) (isAsa ws : Bool)
    (data : Bytes) (pos : Nat) : Except DErr (PVal × Nat) :=
  match structType with
  | "Vector" => do
      let (fs, p1) ← readFloatFields isAsa ["x", "y", "z"] data pos
      .ok (.vStructNative "Vector" fs, p1)
  | "Vector2D" => do
      let (fs, p1) ← readFloatFields isAsa ["x", "y"] data pos
      .ok (.vStructNative "Vector2D" fs, p1)
  | "Rotator" => do
      let (fs, p1) ← readFloatFields isAsa ["pitch", "yaw", "roll"] data pos
      .ok (.vStructNative "Rotator" fs, p1)
  | "Quat" => do
      let (fs, p1) ← readFloatFields ws ["x", "y", "z", "w"] data pos
      .ok (.vStructNative "Quat" fs, p1)
  | "IntPoint" => do
      let (x, p1) ← readI32 data pos
      let (y, p2) ← readI32 data p1
      .ok (.vStructNative "IntPoint" [.vPair "x" (.vInt x), .vPair "y" (.vInt y)], p2)
  | "IntVector" => do
      let (x, p1) ← readI32 data pos
      let (y, p2) ← readI32 data p1
      let (z, p3) ← readI32 data p2
      .ok (.vStructNative "IntVector"
            [.vPair "x" (.vInt x), .vPair "y" (.vInt y), .vPair "z" (.vInt z)], p3)
  | "Color" => do
      let (b, p1) ← readU8 data pos
      let (g, p2) ← readU8 data p1
      let (r, p3) ← readU8 data p2
      let (a, p4) ← readU8 data p3
      .ok (.vStructNative "Color"
            [.vPair "r" (.vInt r), .vPair "g" (.vInt g),
             .vPair "b" (.vInt b), .vPair "a" (.vInt a)], p4)
  | "LinearColor" => do
      let (fs, p1) ← readFloatFields false ["r", "g", "b", "a"] data pos
      .ok (.vStructNative "LinearColor" fs, p1)
  | "UniqueNetIdRepl" =>
      if isAsa then do
        let (unknown, p1) ← readU8 data pos
        let (valueType, p2) ← readString data p1
        let (len, p3) ← readU8 data p2
        let (valueBytes, p4) ← readBytes len data p3
        let core := [.vPair "unknown" (.vInt unknown), .vPair "net_id" (.vStr (bytesHex valueBytes))]
        let fs := if valueType ≠ "" then core ++ [.vPair "value_type" (.vStr valueType)] else core
        .ok (.vStructNative "UniqueNetIdRepl" fs, p4)
      else do
        let (unknown, p1) ← readI32 data pos
        let (netId, p2) ← readString data p1
        .ok (.vStructNative "UniqueNetIdRepl"
              [.vPair "unknown" (.vInt unknown), .vPair "net_id" (.vStr netId)], p2)
  | "Guid" => do
      let (g, p1) ← readGuidStr data pos
      .ok (.vStructNative "Guid" [.vPair "guid" (.vStr g)], p1)
  | "CustomItemDataRef" => do
      let (v1, p1) ← readI32 data pos
      let (v2, p2) ← readI32 data p1
      let (v3, p3) ← readI32 data p2
      let (v4, p4) ← readI32 data p3
      .ok (.vStructNative "CustomItemDataRef"
            [.vPair "value1" (.vInt v1), .vPair "value2" (.vInt v2),
             .vPair "value3" (.vInt v3), .vPair "value4" (.vInt v4)], p4)
  | _ => .error .valueErr

/-! ## Array element helpers (`arkparser/properties/compound.py`) -/

/-- Counted element loop shared by the `for _ in range(count)` patterns. -/
def readLoop (step : Bytes → Nat → Except DErr (PVal × Nat)) :
    Nat → Bytes → Nat → Except DErr (List PVal × Nat)
  | 0, _, pos => .ok ([], pos)
  | k + 1, data, pos => do
      let (v, p1) ← step data pos
      let (vs, p2) ← readLoop step k data p1
      .ok (v :: vs, p2)

/-- One `ObjectProperty` array element in the non-world-save framings
(the `ObjectProperty` branch of `_read_array_elements`). -/
def elemObject (isAsa : Bool) (nt : NameTable) (data : Bytes) (pos : Nat) :
    Except DErr (PVal × Nat) := do
  if isAsa then do
    let (refType, p1) ← readI32 data pos
    if refType = -1 then .ok (.vNull, p1)
    else if refType = 0 then do
      let (refId, p2) ← readI32 data p1
      if refId = -1 then .ok (.vNull, p2)
      else .ok (.vTag "id" (.vInt refId), p2)
    else if refType = 1 then do
      let (path, p2) ← readString data p1
      .ok (.vTag "path" (.vStr path), p2)
    else do
      let (_, p1b) ← skipR (-4) data p1
      let (path, p2) ← readString data p1b
      .ok (.vTag "path" (.vStr path), p2)
  else do
    let (refType, p1) ← readI32 data pos
    if refType = 0 then do
      let (objId, p2) ← readI32 data p1
      .ok (.vTag "id" (.vInt objId), p2)
    else if refType = 1 then do
      let (nm, p2) ← readName nt data p1
      .ok (.vTag "name" (.vStr nm), p2)
    else do
      let (u, p2) ← readI32 data p1
      .ok (.vTag "unknown" (.vInt u), p2)

/-- One `SoftObjectProperty` array element in the non-world-save framings. -/
def elemSoftObject (data : Bytes) (pos : Nat) : Except DErr (PVal × Nat) := do
  let (path, p1) ← readString data pos
  let (subPath, p2) ← readString data p1
  let (_padding, p3) ← readI32 data p2
  .ok (.vDict [.vPair "path" (.vStr path), .vPair "name" (.vStr subPath)], p3)

/-- One `ObjectProperty` array element in the world-save framing. -/
def elemWsObject (t : List (Int × String)) (data : Bytes) (pos : Nat) :
    Except DErr (PVal × Nat) := do
  let (marker, p1) ← readU16 data pos
  if marker = 1 then do
    let (refNameId, p2) ← readI32 data p1
    let (refNameInst, p3) ← readI32 data p2
    .ok (.vStr (wsLookupName t refNameId refNameInst), p3)
  else do
    let (guidBytes, p2) ← readBytes 16 data p1
    if guidBytes.all (· = 0) then .ok (.vNull, p2)
    else .ok (.vStr (guidStrOfBytes guidBytes), p2)

/-- One `NameProperty` array element in the world-save framing. -/
def elemWsName (t : List (Int × String)) (data : Bytes) (pos : Nat) :
    Except DErr (PVal × Nat) := do
  let (nameId, p1) ← readI32 data pos
  let (nameInst, p2) ← readI32 data p1
  .ok (.vStr (wsLookupName t nameId nameInst), p2)

/-- One `SoftObjectProperty` array element in the world-save framing
(name reference plus 4 padding bytes). -/
def elemWsSoftObject (t : List (Int × String)) (data : Bytes) (pos : Nat) :
    Except DErr (PVal × Nat) := do
  let (nameId, p1) ← readI32 data pos
  let (nameInst, p2) ← readI32 data p1
  let (_padding, p3) ← readI32 data p2
  .ok (.vStr (wsLookupName t nameId nameInst), p3)

/-- Model of `_read_worldsave_array_elements` (non-struct element types;
the struct case is handled by `_read_worldsave_struct_array_elements`). -/
def readWorldsaveArrayElements (elementType : String) (count : Int)
    (t : List (Int × String)) (data : Bytes) (pos : Nat) :
    Except DErr (List PVal × Nat) :=
  let k := count.toNat
  if elementType = "IntProperty" then
    readLoop (fun d p => (readI32 d p).map (fun r => (.vInt r.1, r.2))) k data pos
  else if elementType = "UInt32Property" then
    readLoop (fun d p => (readU32 d p).map (fun r => (.vInt (r.1 : Int), r.2))) k data pos
  else if elementType = "Int64Property" then
    readLoop (fun d p => (readI64 d p).map (fun r => (.vInt r.1, r.2))) k data pos
  else if elementType = "UInt64Property" then
    readLoop (fun d p => (readU64 d p).map (fun r => (.vInt (r.1 : Int), r.2))) k data pos
  else if elementType = "Int16Property" then
    readLoop (fun d p => (readI16 d p).map (fun r => (.vInt r.1, r.2))) k data pos
  else if elementType = "UInt16Property" then
    readLoop (fun d p => (readU16 d p).map (fun r => (.vInt (r.1 : Int), r.2))) k data pos
  else if elementType = "Int8Property" then
    readLoop (fun d p => (readI8 d p).map (fun r => (.vInt r.1, r.2))) k data pos
  else if elementType = "ByteProperty" then
    readLoop (fun d p => (readU8 d p).map (fun r => (.vInt (r.1 : Int), r.2))) k data pos
  else if elementType = "FloatProperty" then
    readLoop (fun d p => (readF32 d p).map (fun r => (.vBits r.1, r.2))) k data pos
  else if elementType = "DoubleProperty" then
    readLoop (fun d p => (readF64 d p).map (fun r => (.vBits r.1, r.2))) k data pos
  else if elementType = "BoolProperty" then
    readLoop (fun d p => (readU8 d p).map (fun r => (.vBool (r.1 ≠ 0), r.2))) k data pos
  else if elementType = "StrProperty" then
    readLoop (fun d p => (readString d p).map (fun r => (.vStr r.1, r.2))) k data pos
  else if elementType = "NameProperty" then
    readLoop (elemWsName t) k data pos
  else if elementType = "ObjectProperty" then
    readLoop (elemWsObject t) k data pos
  else if elementType = "StructProperty" then
    .ok ([.vStr ("<WorldSaveStructArray: " ++ intRepr count ++ " elements>")], pos)
  else if elementType = "SoftObjectProperty" then
    readLoop (elemWsSoftObject t) k data pos
  else
    .ok ([.vStr ("<UnknownWorldSaveArray(" ++ elementType ++ "): " ++ intRepr count ++ " elements>")], pos)

/-- The extra `(name_id, name_inst, zeros)` groups consumed when a
world-save struct header value exceeds 1. -/
def skipGroups : Nat → Bytes → Nat → Except DErr (Unit × Nat)
  | 0, _, pos => .ok ((), pos)
  | k + 1, data, pos => do
      let (_extraNameId, p1) ← readI32 data pos
      let (_extraNameInst, p2) ← readI32 data p1
      let (_extraZeros, p3) ← readI32 data p2
      skipGroups k data p3

/-- The `val_dict` construction in `_read_worldsave_map`: a dict of
property name to value, later duplicates overwriting. -/
def propsToDict (props : List PVal) : List PVal :=
  props.foldl (fun acc p => pvalDictInsert acc ((pvalPropName p).getD "") (pvalPropValue p)) []

/-! ## The property dispatch loop (`arkparser/properties/registry.py`)

`read_properties` / `read_property` / the per-type compound readers are
mutually recursive through nested structs and arrays; the recursion is
indexed by an explicit fuel parameter which every mutual call decrements.
All theorems are conditioned on a successful decode, so the fuel value
never matters to them. -/

/-- The call graph of `read_properties` / `read_property` / the compound
per-type readers is mutually recursive through nested structs and arrays.
To keep every decoder kernel-computable the whole call graph is packed
into one request type and a single function `decodeStep` that recurses
structurally on an explicit fuel parameter; every recursive call
decrements the fuel.  All theorems are conditioned on a successful
decode, so the fuel value never matters to them.  Each constructor
carries the arguments of one of the original readers (minus the shared
`data` buffer and the fuel). -/
inductive DReq where
  | props (isAsa : Bool) (nt : NameTable) (ws : Bool) (pos : Nat)
  | prop (isAsa : Bool) (nt : NameTable) (ws : Bool) (pos : Nat)
  | propValue (tn : String) (hdr : PropertyHeader) (isAsa : Bool) (nt : NameTable)
      (ws : Bool) (pos : Nat)
  | arrayProp (hdr : PropertyHeader) (isAsa : Bool) (nt : NameTable) (ws : Bool) (pos : Nat)
  | wsArray (hdr : PropertyHeader) (nt : NameTable) (pos : Nat)
  | arrayElems (arrayType : String) (count : Int) (dataSize : Int) (arrayName : String)
      (isAsa : Bool) (nt : NameTable) (pos : Nat)
  | cloudStructElems (structType : String) (isAsa : Bool) (nt : NameTable)
      (hasPad : Bool) (count : Nat) (pos : Nat)
  | aseStructArrayElems (arrayName : String) (isAsa : Bool) (nt : NameTable)
      (count : Nat) (pos : Nat)
  | wsStructArrayElems (structType : String) (count : Nat) (t : List (Int × String)) (pos : Nat)
  | wsPropListElems (structType : String) (count : Nat) (t : List (Int × String)) (pos : Nat)
  | wsStructElemProps (acc : List PVal) (t : List (Int × String)) (pos : Nat)
  | structProp (hdr : PropertyHeader) (isAsa : Bool) (nt : NameTable) (ws : Bool) (pos : Nat)
  | wsStruct (hdr : PropertyHeader) (nt : NameTable) (pos : Nat)
  | structReq (structType : String) (isAsa : Bool) (hasIdxPre : Bool) (nt : NameTable)
      (ws : Bool) (pos : Nat)
  | structForArray (arrayName : String) (isAsa : Bool) (nt : NameTable) (pos : Nat)
  | mapProp (hdr : PropertyHeader) (isAsa : Bool) (nt : NameTable) (ws : Bool) (pos : Nat)
  | wsMap (hdr : PropertyHeader) (nt : NameTable) (pos : Nat)
  | wsMapEntries (keyType valueType : String) (count : Nat) (acc : List PVal)
      (t : List (Int × String)) (pos : Nat)

/-- Result type of each packed request: the original reader's result type.
The world-save map entry loop reports recoverable failures (for the
surrounding `except` clause) through a nested `Except` carrying the
partial entry dict and the failure position. -/
def DReqOut : DReq → Type
  | .props _ _ _ _ => List PVal × Nat
  | .prop _ _ _ _ => Option PVal × Nat
  | .propValue _ _ _ _ _ _ => PVal × Nat
  | .arrayProp _ _ _ _ _ => PVal × Nat
  | .wsArray _ _ _ => PVal × Nat
  | .arrayElems _ _ _ _ _ _ _ => List PVal × Nat
  | .cloudStructElems _ _ _ _ _ _ => List PVal × Nat
  | .aseStructArrayElems _ _ _ _ _ => List PVal × Nat
  | .wsStructArrayElems _ _ _ _ => List PVal × Nat
  | .wsPropListElems _ _ _ _ => List PVal × Nat
  | .wsStructElemProps _ _ _ => List PVal × Nat
  | .structProp _ _ _ _ _ => PVal × Nat
  | .wsStruct _ _ _ => PVal × Nat
  | .structReq _ _ _ _ _ _ => PVal × Nat
  | .structForArray _ _ _ _ => PVal × Nat
  | .mapProp _ _ _ _ _ => PVal × Nat
  | .wsMap _ _ _ => PVal × Nat
  | .wsMapEntries _ _ _ _ _ _ => Except (DErr × List PVal × Nat) (List PVal × Nat)

def readPropertiesCore (data : Bytes) (step : (r : DReq) → Except DErr (DReqOut r))
    (isAsa : Bool) (nt : NameTable) (ws : Bool) (pos : Nat) :
    Except DErr (List PVal × Nat) :=
    (do
      let (pr?, p1) ← step (.prop isAsa nt ws pos)
      match pr? with
      | none => .ok ([], p1)
      | some pr => do
          let (rest, p2) ← step (.props isAsa nt ws p1)
          .ok (pr :: rest, p2) : Except DErr (List PVal × Nat))

def readPropertyCore (data : Bytes) (step : (r : DReq) → Except DErr (DReqOut r))
    (isAsa : Bool) (nt : NameTable) (ws : Bool) (pos : Nat) :
    Except DErr (Option PVal × Nat) :=
    (do
      let (hdr?, p1) ← readPropertyHeader isAsa nt ws data pos
      match hdr? with
      | none => .ok (none, p1)
      | some hdr => do
          let (pr, p2) ← step (.propValue hdr.typeName hdr isAsa nt ws p1)
          .ok (some pr, p2) : Except DErr (Option PVal × Nat))

def readPropValueCore (data : Bytes) (step : (r : DReq) → Except DErr (DReqOut r))
    (tn : String) (hdr : PropertyHeader) (isAsa : Bool) (nt : NameTable) (ws : Bool) (pos : Nat) :
    Except DErr (PVal × Nat) :=
    (match tn with
      | "Int8Property" => readInt8Prop hdr isAsa ws data pos
      | "Int16Property" => readInt16Prop hdr isAsa ws data pos
      | "IntProperty" => readIntProp hdr isAsa ws data pos
      | "Int64Property" => readInt64Prop hdr isAsa ws data pos
      | "UInt16Property" => readUInt16Prop hdr isAsa ws data pos
      | "UInt32Property" => readUInt32Prop hdr isAsa ws data pos
      | "UInt64Property" => readUInt64Prop hdr isAsa ws data pos
      | "FloatProperty" => readFloatProp hdr isAsa ws data pos
      | "DoubleProperty" => readDoubleProp hdr isAsa ws data pos
      | "BoolProperty" => readBoolProp hdr isAsa ws data pos
      | "StrProperty" => readStrProp hdr isAsa ws data pos
      | "NameProperty" => readNameProp hdr isAsa ws nt data pos
      | "ObjectProperty" => readObjectProp hdr isAsa ws nt data pos
      | "SoftObjectProperty" => readSoftObjectProp hdr isAsa ws nt data pos
      | "ByteProperty" => readByteProp hdr isAsa ws nt data pos
      | "ArrayProperty" => step (.arrayProp hdr isAsa nt ws pos)
      | "StructProperty" => step (.structProp hdr isAsa nt ws pos)
      | "MapProperty" => step (.mapProp hdr isAsa nt ws pos)
      | _ => .error (.unknownProperty tn) : Except DErr (PVal × Nat))

def readArrayPropCore (data : Bytes) (step : (r : DReq) → Except DErr (DReqOut r))
    (hdr : PropertyHeader) (isAsa : Bool) (nt : NameTable) (ws : Bool) (pos : Nat) :
    Except DErr (PVal × Nat) :=
    (if ws then step (.wsArray hdr nt pos)
     else if isAsa ∧ hdr.dataSize = 1 ∧ 0 < hdr.index then do
       let (atBytes, p1) ← readBytes hdr.index.toNat data pos
       let arrayType := latin1Str atBytes.dropLast
       let index := hdr.dataSize
       if arrayType = "StructProperty" then do
         let (values, p2) ←
           step (.arrayElems arrayType (-1) hdr.dataSize hdr.name isAsa nt p1)
         .ok (.vProp hdr.name "ArrayProperty" index (.vTag arrayType (.vList values)), p2)
       else do
         let (_zeros, p2) ← readI32 data p1
         let (_ds, p3) ← readI32 data p2
         let (_extra, p4) ← readU8 data p3
         let (count, p5) ← readI32 data p4
         if count ≠ 0 then do
           let (values, p6) ←
             step (.arrayElems arrayType count hdr.dataSize hdr.name isAsa nt p5)
           .ok (.vProp hdr.name "ArrayProperty" index (.vTag arrayType (.vList values)), p6)
         else
           .ok (.vProp hdr.name "ArrayProperty" index (.vTag arrayType (.vList [])), p5)
     else do
       let (arrayType, p1) ← readName nt data pos
       let (index, p2) ←
         if isAsa then do
           let (extra, p1b) ← readU8 data p1
           if extra &&& 0x01 ≠ 0 then readI32 data p1b
           else .ok (hdr.index, p1b)
         else .ok (hdr.index, p1)
       let (count, p3) ← readI32 data p2
       if count ≠ 0 then do
         let (values, p4) ←
           step (.arrayElems arrayType count hdr.dataSize hdr.name isAsa nt p3)
         .ok (.vProp hdr.name "ArrayProperty" index (.vTag arrayType (.vList values)), p4)
       else
         .ok (.vProp hdr.name "ArrayProperty" index (.vTag arrayType (.vList [])), p3)
     : Except DErr (PVal × Nat))

def readWorldsaveArrayCore (data : Bytes) (step : (r : DReq) → Except DErr (DReqOut r))
    (hdr : PropertyHeader) (nt : NameTable) (pos : Nat) :
    Except DErr (PVal × Nat) :=
    (match nt with
      | .dict t => do
          let (_arrayHeader, p1) ← readI32 data pos
          let (elementTypeId, p2) ← readI32 data p1
          let elementType :=
            (dictGet t elementTypeId).getD ("__UNKNOWN_" ++ intRepr elementTypeId ++ "__")
          if elementType = "StructProperty" then do
            let (_zeros1, p3) ← readI32 data p2
            let (structHeader, p4) ← readI32 data p3
            let (structTypeId, p5) ← readI32 data p4
            let structType :=
              (dictGet t structTypeId).getD ("__UNKNOWN_" ++ intRepr structTypeId ++ "__")
            let (_zeros2, p6) ← readI32 data p5
            let (_structHeader2, p7) ← readI32 data p6
            let (_scriptPathId, p8) ← readI32 data p7
            let (_zeros3, p9) ← readI32 data p8
            let (_zeros4, p10) ← readI32 data p9
            let (_, p11) ← skipGroups (structHeader - 1).toNat data p10
            let (_arrayByteLength, p12) ← readI32 data p11
            let (_flagByte, p13) ← readU8 data p12
            let (count, p14) ← readI32 data p13
            if 0 < count then
              if structType ≠ "" then do
                let (values, p15) ←
                  step (.wsStructArrayElems structType count.toNat t p14)
                .ok (.vProp hdr.name "ArrayProperty" 0 (.vTag elementType (.vList values)), p15)
              else do
                let (values, p15) ← readWorldsaveArrayElements elementType count t data p14
                .ok (.vProp hdr.name "ArrayProperty" 0 (.vTag elementType (.vList values)), p15)
            else
              .ok (.vProp hdr.name "ArrayProperty" 0 (.vTag elementType (.vList [])), p14)
          else do
            let (_zeros1, p3) ← readI32 data p2
            let (_zeros2, p4) ← readI32 data p3
            let (_arrayByteLength, p5) ← readI32 data p4
            let (arrayIndex, p6) ← readU8 data p5
            let (count, p7) ← readI32 data p6
            if 0 < count then do
              let (values, p8) ← readWorldsaveArrayElements elementType count t data p7
              .ok (.vProp hdr.name "ArrayProperty" (arrayIndex : Int)
                    (.vTag elementType (.vList values)), p8)
            else
              .ok (.vProp hdr.name "ArrayProperty" (arrayIndex : Int)
                    (.vTag elementType (.vList [])), p7)
      | _ => .error .valueErr : Except DErr (PVal × Nat))

def readArrayElementsCore (data : Bytes) (step : (r : DReq) → Except DErr (DReqOut r))
    (arrayType : String) (count : Int) (dataSize : Int) (arrayName : String) (isAsa : Bool) (nt : NameTable) (pos : Nat) :
    Except DErr (List PVal × Nat) :=
    (let k := count.toNat
     if arrayType = "IntProperty" then
       readLoop (fun d p => (readI32 d p).map (fun r => (.vInt r.1, r.2))) k data pos
     else if arrayType = "UInt32Property" then
       readLoop (fun d p => (readU32 d p).map (fun r => (.vInt (r.1 : Int), r.2))) k data pos
     else if arrayType = "Int64Property" then
       readLoop (fun d p => (readI64 d p).map (fun r => (.vInt r.1, r.2))) k data pos
     else if arrayType = "UInt64Property" then
       readLoop (fun d p => (readU64 d p).map (fun r => (.vInt (r.1 : Int), r.2))) k data pos
     else if arrayType = "Int16Property" then
       readLoop (fun d p => (readI16 d p).map (fun r => (.vInt r.1, r.2))) k data pos
     else if arrayType = "UInt16Property" then
       readLoop (fun d p => (readU16 d p).map (fun r => (.vInt (r.1 : Int), r.2))) k data pos
     else if arrayType = "Int8Property" then
       readLoop (fun d p => (readI8 d p).map (fun r => (.vInt r.1, r.2))) k data pos
     else if arrayType = "ByteProperty" then
       readLoop (fun d p => (readU8 d p).map (fun r => (.vInt (r.1 : Int), r.2))) k data pos
     else if arrayType = "FloatProperty" then
       readLoop (fun d p => (readF32 d p).map (fun r => (.vBits r.1, r.2))) k data pos
     else if arrayType = "DoubleProperty" then
       readLoop (fun d p => (readF64 d p).map (fun r => (.vBits r.1, r.2))) k data pos
     else if arrayType = "BoolProperty" then
       readLoop (fun d p => (readU8 d p).map (fun r => (.vBool (r.1 ≠ 0), r.2))) k data pos
     else if arrayType = "StrProperty" then
       readLoop (fun d p => (readString d p).map (fun r => (.vStr r.1, r.2))) k data pos
     else if arrayType = "NameProperty" then
       readLoop (fun d p => (readName nt d p).map (fun r => (.vStr r.1, r.2))) k data pos
     else if arrayType = "ObjectProperty" then
       readLoop (elemObject isAsa nt) k data pos
     else if arrayType = "SoftObjectProperty" then
       readLoop elemSoftObject k data pos
     else if arrayType = "StructProperty" then
       if isAsa ∧ count < 0 then do
         let (_extra1, p1) ← readI32 data pos
         let (structType, p2) ← readString data p1
         let (_extra2, p3) ← readI32 data p2
         let (_scriptPath, p4) ← readString data p3
         let (_zeros, p5) ← readI32 data p4
         let (arrayDataSize, p6) ← readI32 data p5
         let (extra3, p7) ← readU8 data p6
         let arrayDataEnd : Int := (p7 : Int) + arrayDataSize
         let (actualCount, p8) ← readI32 data p7
         let hasPad := extra3 &&& 0x08 ≠ 0
         let (values, p9) ←
           step (.cloudStructElems structType isAsa nt hasPad actualCount.toNat p8)
         let (_, p10) ←
           if (p9 : Int) < arrayDataEnd then skipR (arrayDataEnd - p9) data p9
           else .ok ((), p9)
         .ok (values, p10)
       else
         step (.aseStructArrayElems arrayName isAsa nt k pos)
     else
       .ok ([.vStr ("<UnknownArray(" ++ arrayType ++ "): " ++ intRepr count ++ " elements>")], pos)
     : Except DErr (List PVal × Nat))

def readCloudStructElemsCore (data : Bytes) (step : (r : DReq) → Except DErr (DReqOut r))
    (structType : String) (isAsa : Bool) (nt : NameTable) (hasPad : Bool) (count : Nat) (pos : Nat) :
    Except DErr (List PVal × Nat) :=
    (match count with
      | 0 => .ok ([], pos)
      | k + 1 => do
          let (sv, p1) ← step (.structReq structType isAsa false nt false pos)
          let (_, p2) ←
            if hasPad ∧ k ≠ 0 then skipR 4 data p1
            else .ok ((), p1)
          let (rest, p3) ← step (.cloudStructElems structType isAsa nt hasPad k p2)
          .ok (sv :: rest, p3) : Except DErr (List PVal × Nat))

def readAseStructArrayElemsCore (data : Bytes) (step : (r : DReq) → Except DErr (DReqOut r))
    (arrayName : String) (isAsa : Bool) (nt : NameTable) (count : Nat) (pos : Nat) :
    Except DErr (List PVal × Nat) :=
    (match count with
      | 0 => .ok ([], pos)
      | k + 1 => do
          let (sv, p1) ← step (.structForArray arrayName isAsa nt pos)
          let (rest, p2) ← step (.aseStructArrayElems arrayName isAsa nt k p1)
          .ok (sv :: rest, p2) : Except DErr (List PVal × Nat))

def readWorldsaveStructArrayElementsCore (data : Bytes) (step : (r : DReq) → Except DErr (DReqOut r))
    (structType : String) (count : Nat) (t : List (Int × String)) (pos : Nat) :
    Except DErr (List PVal × Nat) :=
    (if structRegistryNames.contains structType then
       readLoop (readNativeStruct structType true true) count data pos
     else
       step (.wsPropListElems structType count t pos)
     : Except DErr (List PVal × Nat))

def readWsPropListElemsCore (data : Bytes) (step : (r : DReq) → Except DErr (DReqOut r))
    (structType : String) (count : Nat) (t : List (Int × String)) (pos : Nat) :
    Except DErr (List PVal × Nat) :=
    (match count with
      | 0 => .ok ([], pos)
      | k + 1 => do
          let (entries, p1) ←
            step (.wsStructElemProps [.vPair "_struct_type" (.vStr structType)] t pos)
          let (rest, p2) ← step (.wsPropListElems structType k t p1)
          .ok (.vDict entries :: rest, p2) : Except DErr (List PVal × Nat))

def readWsStructElemPropsCore (data : Bytes) (step : (r : DReq) → Except DErr (DReqOut r))
    (acc : List PVal) (t : List (Int × String)) (pos : Nat) :
    Except DErr (List PVal × Nat) :=
    (do
      let (pr?, p1) ← step (.prop true (.dict t) true pos)
      match pr? with
      | none => .ok (acc, p1)
      | some pr =>
          let key :=
            if 0 < pvalPropIndex pr then
              (pvalPropName pr).getD "" ++ "[" ++ intRepr (pvalPropIndex pr) ++ "]"
            else (pvalPropName pr).getD ""
          step (.wsStructElemProps (pvalDictInsert acc key (pvalPropValue pr)) t p1)
       : Except DErr (List PVal × Nat))

def readStructPropCore (data : Bytes) (step : (r : DReq) → Except DErr (DReqOut r))
    (hdr : PropertyHeader) (isAsa : Bool) (nt : NameTable) (ws : Bool) (pos : Nat) :
    Except DErr (PVal × Nat) :=
    (if ws then step (.wsStruct hdr nt pos)
     else if isAsa ∧ hdr.dataSize = 1 ∧ 0 < hdr.index then do
       let (stBytes, p1) ← readBytes hdr.index.toNat data pos
       let structType := latin1Str stBytes.dropLast
       let (_extra1, p2) ← readI32 data p1
       let (_scriptPath, p3) ← readString data p2
       let (_zeros, p4) ← readI32 data p3
       let (_ds, p5) ← readI32 data p4
       let index := hdr.dataSize
       let (extraByte, p6) ← readU8 data p5
       let hasIdxPre := extraByte &&& 0x01 ≠ 0
       let (sv, p7) ← step (.structReq structType isAsa hasIdxPre nt false p6)
       .ok (.vProp hdr.name "StructProperty" index sv, p7)
     else do
       let index := hdr.index
       let (structType, p1) ← readName nt data pos
       let (_, p2) ←
         if isAsa ∧ ¬ structRegistryNames.contains structType then skipR 17 data p1
         else .ok ((), p1)
       let (sv, p3) ← step (.structReq structType isAsa false nt false p2)
       .ok (.vProp hdr.name "StructProperty" index sv, p3)
     : Except DErr (PVal × Nat))

def readWorldsaveStructCore (data : Bytes) (step : (r : DReq) → Except DErr (DReqOut r))
    (hdr : PropertyHeader) (nt : NameTable) (pos : Nat) :
    Except DErr (PVal × Nat) :=
    (match nt with
      | .dict t => do
          let (structHeader1, p1) ← readI32 data pos
          let (structTypeId, p2) ← readI32 data p1
          let structType :=
            (dictGet t structTypeId).getD ("__UNKNOWN_" ++ intRepr structTypeId ++ "__")
          let (_zeros1, p3) ← readI32 data p2
          let (_structHeader2, p4) ← readI32 data p3
          let (_blueprintTypeId, p5) ← readI32 data p4
          let (_zeros2, p6) ← readI32 data p5
          let (_zeros3, p7) ← readI32 data p6
          let (_, p8) ← skipGroups (structHeader1 - 1).toNat data p7
          let (_ds, p9) ← readI32 data p8
          let (flagByte, p10) ← readU8 data p9
          let (arrayIndex, p11) ←
            if flagByte &&& 0x01 ≠ 0 then readI32 data p10
            else .ok ((0 : Int), p10)
          let (sv, p12) ← step (.structReq structType true false (.dict t) true p11)
          .ok (.vProp hdr.name "StructProperty" arrayIndex sv, p12)
      | _ => .error .valueErr : Except DErr (PVal × Nat))

def readStructCore (data : Bytes) (step : (r : DReq) → Except DErr (DReqOut r))
    (structType : String) (isAsa : Bool) (hasIdxPre : Bool) (nt : NameTable) (ws : Bool) (pos : Nat) :
    Except DErr (PVal × Nat) :=
    (do
      let (_, p1) ←
        if hasIdxPre then (readI32 data pos).map (fun r => ((), r.2))
        else .ok ((), pos)
      if structRegistryNames.contains structType then
        readNativeStruct structType isAsa ws data p1
      else do
        let (props, p2) ← step (.props isAsa nt ws p1)
        .ok (.vStructProps structType props, p2) : Except DErr (PVal × Nat))

def readStructForArrayCore (data : Bytes) (step : (r : DReq) → Except DErr (DReqOut r))
    (arrayName : String) (isAsa : Bool) (nt : NameTable) (pos : Nat) :
    Except DErr (PVal × Nat) :=
    (match arrayNameToStructType arrayName with
      | some st => step (.structReq st isAsa false nt false pos)
      | none => do
          let (props, p1) ← step (.props isAsa nt false pos)
          .ok (.vStructProps "PropertyList" props, p1) : Except DErr (PVal × Nat))

def readMapPropCore (data : Bytes) (step : (r : DReq) → Except DErr (DReqOut r))
    (hdr : PropertyHeader) (isAsa : Bool) (nt : NameTable) (ws : Bool) (pos : Nat) :
    Except DErr (PVal × Nat) :=
    (if ws then step (.wsMap hdr nt pos)
     else do
       let (keyType, p1) ← readName nt data pos
       let (valueType, p2) ← readName nt data p1
       let (_, p3) ← if isAsa then skipR 1 data p2 else .ok ((), p2)
       let (_unknown, p4) ← readU8 data p3
       let (count, p5) ← readI32 data p4
       if 0 < count then
         let remaining : Int :=
           hdr.dataSize - 4 - (keyType.length : Int) - 5 - (valueType.length : Int) - 5 - 1 - 4
         if 0 < remaining then do
           let (raw, p6) ← readBytes remaining.toNat data p5
           .ok (.vProp hdr.name "MapProperty" hdr.index
                 (.vPair keyType (.vPair valueType (.vDict
                   [.vPair "_raw" (.vBytes raw),
                    .vPair "_note" (.vStr ("Map with " ++ intRepr count ++
                      " entries, needs type-specific parsing"))]))), p6)
         else
           .ok (.vProp hdr.name "MapProperty" hdr.index
                 (.vPair keyType (.vPair valueType (.vDict []))), p5)
       else
         .ok (.vProp hdr.name "MapProperty" hdr.index
               (.vPair keyType (.vPair valueType (.vDict []))), p5)
     : Except DErr (PVal × Nat))

def readWorldsaveMapCore (data : Bytes) (step : (r : DReq) → Except DErr (DReqOut r))
    (hdr : PropertyHeader) (nt : NameTable) (pos : Nat) :
    Except DErr (PVal × Nat) :=
    (match nt with
      | .dict t => do
          let (_marker, p1) ← readI32 data pos
          let (keyTypeId, p2) ← readI32 data p1
          let (_keyTypeInst, p3) ← readI32 data p2
          let keyType := (dictGet t keyTypeId).getD ("__UNKNOWN_" ++ intRepr keyTypeId ++ "__")
          let (_, p4) ←
            if keyType = "StructProperty" then do
              let (_structMarker, q1) ← readI32 data p3
              let (_keyStructTypeId, q2) ← readI32 data q1
              let (_keyStructTypeInst, q3) ← readI32 data q2
              let (_scriptMarker, q4) ← readI32 data q3
              let (_keyScriptPathId, q5) ← readI32 data q4
              let (_keyScriptPathInst, q6) ← readI32 data q5
              let (_keyZeros, q7) ← readI32 data q6
              .ok ((), q7)
            else do
              let (_padAfterKey, q1) ← readI32 data p3
              .ok ((), q1)
          let (valueTypeId, p5) ← readI32 data p4
          let (_valueTypeInst, p6) ← readI32 data p5
          let valueType :=
            (dictGet t valueTypeId).getD ("__UNKNOWN_" ++ intRepr valueTypeId ++ "__")
          let (_, p7) ←
            if valueType = "StructProperty" then do
              let (structMarker, q1) ← readI32 data p6
              let (_structTypeId, q2) ← readI32 data q1
              let (_structTypeInst, q3) ← readI32 data q2
              let (_scriptMarker, q4) ← readI32 data q3
              let (_scriptPathId, q5) ← readI32 data q4
              let (_scriptPathInst, q6) ← readI32 data q5
              let (_zeros, q7) ← readI32 data q6
              let (_, q8) ← skipGroups (structMarker - 1).toNat data q7
              .ok ((), q8)
            else do
              let (_padAfterValue, q1) ← readI32 data p6
              .ok ((), q1)
          let (dataSize, p8) ← readI32 data p7
          let (_flag, p9) ← readU8 data p8
          let (_skipCount, p10) ← readI32 data p9
          let (mapCount, p11) ← readI32 data p10
          let entriesEnd : Int := if 8 < dataSize then (p11 : Int) + (dataSize - 8) else (p11 : Int)
          if 0 < mapCount then
            match step (.wsMapEntries keyType valueType mapCount.toNat [] t p11) with
            | .error e => .error e
            | .ok (.ok (entries, pE)) =>
                .ok (.vProp hdr.name "MapProperty" hdr.index
                      (.vPair keyType (.vPair valueType (.vDict entries))), pE)
            | .ok (.error (.outOfFuel, _, _)) => .error .outOfFuel
            | .ok (.error (_, partialEntries, pAt)) =>
                let pNew := if (pAt : Int) < entriesEnd then entriesEnd.toNat else pAt
                .ok (.vProp hdr.name "MapProperty" hdr.index
                      (.vPair keyType (.vPair valueType (.vDict partialEntries))), pNew)
          else
            .ok (.vProp hdr.name "MapProperty" hdr.index
                  (.vPair keyType (.vPair valueType (.vDict []))), p11)
      | _ => .error .valueErr : Except DErr (PVal × Nat))

def readWsMapEntriesCore (data : Bytes) (step : (r : DReq) → Except DErr (DReqOut r))
    (keyType valueType : String) (count : Nat) (acc : List PVal) (t : List (Int × String)) (pos : Nat) :
    Except DErr (Except (DErr × List PVal × Nat) (List PVal × Nat)) :=
    (match count with
      | 0 => .ok (.ok (acc, pos))
      | k + 1 =>
          let keyRes : Except DErr (String × Nat) :=
            if keyType = "NameProperty" then do
              let (keyNameId, q1) ← readI32 data pos
              let (_keyNameInst, q2) ← readI32 data q1
              .ok ((dictGet t keyNameId).getD ("__UNKNOWN_" ++ intRepr keyNameId ++ "__"), q2)
            else if keyType = "ObjectProperty" then do
              let (kb, q1) ← readBytes 16 data pos
              let (_, q2) ← skipR 1 data q1
              .ok (bytesHex kb, q2)
            else do
              let (keyId, q1) ← readI32 data pos
              let (_keyInst, q2) ← readI32 data q1
              .ok ((dictGet t keyId).getD ("__UNKNOWN_" ++ intRepr keyId ++ "__"), q2)
          match keyRes with
          | .error e => .ok (.error (e, acc, pos))
          | .ok (keyVal, p1) =>
              if valueType = "StructProperty" then
                match step (.props true (.dict t) true p1) with
                | .error e => .ok (.error (e, acc, p1))
                | .ok (structProps, p2) =>
                    match step (.wsMapEntries keyType valueType k
                        (pvalDictInsert acc keyVal (.vDict (propsToDict structProps))) t p2) with
                    | .error e =>
                        .ok (.error (e,
                          pvalDictInsert acc keyVal (.vDict (propsToDict structProps)), p2))
                    | .ok r => .ok r
              else
                match step (.wsMapEntries keyType valueType k
                    (pvalDictInsert acc keyVal (.vStr ("<" ++ valueType ++ " value>"))) t p1) with
                | .error e =>
                    .ok (.error (e,
                      pvalDictInsert acc keyVal (.vStr ("<" ++ valueType ++ " value>")), p1))
                | .ok r => .ok r
      : Except DErr (Except (DErr × List PVal × Nat) (List PVal × Nat)))

/-- One packed decoder for the whole `read_properties` call graph.  Each
`DReq` arm is the direct transliteration of the corresponding reader in
`arkparser/properties/registry.py`, `primitives.py`, `compound.py` and
`arkparser/structs/registry.py`; the per-arm documentation lives on the
named wrappers below. -/
def decodeStep (data : Bytes) : Nat → (r : DReq) → Except DErr (DReqOut r)
  | 0, _ => .error .outOfFuel
  | fuel + 1, req =>
      match req with
      | .props isAsa nt ws pos => readPropertiesCore data (decodeStep data fuel) isAsa nt ws pos
      | .prop isAsa nt ws pos => readPropertyCore data (decodeStep data fuel) isAsa nt ws pos
      | .propValue tn hdr isAsa nt ws pos => readPropValueCore data (decodeStep data fuel) tn hdr isAsa nt ws pos
      | .arrayProp hdr isAsa nt ws pos => readArrayPropCore data (decodeStep data fuel) hdr isAsa nt ws pos
      | .wsArray hdr nt pos => readWorldsaveArrayCore data (decodeStep data fuel) hdr nt pos
      | .arrayElems arrayType count dataSize arrayName isAsa nt pos => readArrayElementsCore data (decodeStep data fuel) arrayType count dataSize arrayName isAsa nt pos
      | .cloudStructElems structType isAsa nt hasPad count pos => readCloudStructElemsCore data (decodeStep data fuel) structType isAsa nt hasPad count pos
      | .aseStructArrayElems arrayName isAsa nt count pos => readAseStructArrayElemsCore data (decodeStep data fuel) arrayName isAsa nt count pos
      | .wsStructArrayElems structType count t pos => readWorldsaveStructArrayElementsCore data (decodeStep data fuel) structType count t pos
      | .wsPropListElems structType count t pos => readWsPropListElemsCore data (decodeStep data fuel) structType count t pos
      | .wsStructElemProps acc t pos => readWsStructElemPropsCore data (decodeStep data fuel) acc t pos
      | .structProp hdr isAsa nt ws pos => readStructPropCore data (decodeStep data fuel) hdr isAsa nt ws pos
      | .wsStruct hdr nt pos => readWorldsaveStructCore data (decodeStep data fuel) hdr nt pos
      | .structReq structType isAsa hasIdxPre nt ws pos => readStructCore data (decodeStep data fuel) structType isAsa hasIdxPre nt ws pos
      | .structForArray arrayName isAsa nt pos => readStructForArrayCore data (decodeStep data fuel) arrayName isAsa nt pos
      | .mapProp hdr isAsa nt ws pos => readMapPropCore data (decodeStep data fuel) hdr isAsa nt ws pos
      | .wsMap hdr nt pos => readWorldsaveMapCore data (decodeStep data fuel) hdr nt pos
      | .wsMapEntries keyType valueType count acc t pos => readWsMapEntriesCore data (decodeStep data fuel) keyType valueType count acc t pos

/-- Model of `read_properties`: read properties in a loop until the
terminating header returns `None`. -/
def readProperties (fuel : Nat) (isAsa : Bool) (nt : NameTable) (ws : Bool)
    (data : Bytes) (pos : Nat) : Except DErr (List PVal × Nat) :=
  decodeStep data fuel (.props isAsa nt ws pos)

/-- Model of `read_property`: read the header, return `none` on the
terminator, otherwise dispatch on the type name through
`PROPERTY_REGISTRY` (unknown types raise `UnknownPropertyError`). -/
def readProperty (fuel : Nat) (isAsa : Bool) (nt : NameTable) (ws : Bool)
    (data : Bytes) (pos : Nat) : Except DErr (Option PVal × Nat) :=
  decodeStep data fuel (.prop isAsa nt ws pos)

/-- The `PROPERTY_REGISTRY` dispatch: type name to reader.  The registry
in `registry.py` passes the name table only to the types that need it;
since the embedded primitive readers ignore it, passing it uniformly is
behaviourally identical. -/
def readPropValue (fuel : Nat) (tn : String) (hdr : PropertyHeader)
    (isAsa : Bool) (nt : NameTable) (ws : Bool) (data : Bytes) (pos : Nat) :
    Except DErr (PVal × Nat) :=
  decodeStep data fuel (.propValue tn hdr isAsa nt ws pos)

/-- Model of `ArrayProperty.read` (non-world-save part) with the ASA
cloud-inventory detection `data_size == 1 and index > 0`. -/
def readArrayProp (fuel : Nat) (hdr : PropertyHeader) (isAsa : Bool)
    (nt : NameTable) (ws : Bool) (data : Bytes) (pos : Nat) :
    Except DErr (PVal × Nat) :=
  decodeStep data fuel (.arrayProp hdr isAsa nt ws pos)

/-- Model of `ArrayProperty._read_worldsave_array`. -/
def readWorldsaveArray (fuel : Nat) (hdr : PropertyHeader) (nt : NameTable)
    (data : Bytes) (pos : Nat) : Except DErr (PVal × Nat) :=
  decodeStep data fuel (.wsArray hdr nt pos)

/-- Model of `_read_array_elements`: element dispatch for the non-world-save
framings.  Primitive element types loop raw reads; `StructProperty`
dispatches to the ASA cloud struct-array header (`count == -1` sentinel)
or the ASE per-element struct readers; unknown types record a
placeholder string. -/
def readArrayElements (fuel : Nat) (arrayType : String) (count : Int)
    (dataSize : Int) (arrayName : String) (isAsa : Bool) (nt : NameTable)
    (data : Bytes) (pos : Nat) : Except DErr (List PVal × Nat) :=
  decodeStep data fuel (.arrayElems arrayType count dataSize arrayName isAsa nt pos)

/-- The ASA cloud struct-array element loop of `_read_array_elements`:
`read_struct` per element, with 4 padding bytes between consecutive
elements when bit 3 of the outer extra byte is set. -/
def readCloudStructElems (fuel : Nat) (structType : String) (isAsa : Bool)
    (nt : NameTable) (hasPad : Bool) (count : Nat) (data : Bytes) (pos : Nat) :
    Except DErr (List PVal × Nat) :=
  decodeStep data fuel (.cloudStructElems structType isAsa nt hasPad count pos)

/-- The ASE struct-array element loop of `_read_array_elements`:
`read_struct_for_array` per element. -/
def readAseStructArrayElems (fuel : Nat) (arrayName : String) (isAsa : Bool)
    (nt : NameTable) (count : Nat) (data : Bytes) (pos : Nat) :
    Except DErr (List PVal × Nat) :=
  decodeStep data fuel (.aseStructArrayElems arrayName isAsa nt count pos)

/-- Model of `_read_worldsave_struct_array_elements`: native struct types
loop fixed-size reads (`read_struct` with the world-save flag); other
types read one property list per element into a dict seeded with the
struct type. -/
def readWorldsaveStructArrayElements (fuel : Nat) (structType : String)
    (count : Nat) (t : List (Int × String)) (data : Bytes) (pos : Nat) :
    Except DErr (List PVal × Nat) :=
  decodeStep data fuel (.wsStructArrayElems structType count t pos)

/-- The property-list element loop of
`_read_worldsave_struct_array_elements`. -/
def readWsPropListElems (fuel : Nat) (structType : String) (count : Nat)
    (t : List (Int × String)) (data : Bytes) (pos : Nat) :
    Except DErr (List PVal × Nat) :=
  decodeStep data fuel (.wsPropListElems structType count t pos)

/-- The inner `while True: read_property` loop of
`_read_worldsave_struct_array_elements`, collecting property values into a
dict under `name` or `name[index]` keys until the `None` terminator. -/
def readWsStructElemProps (fuel : Nat) (acc : List PVal)
    (t : List (Int × String)) (data : Bytes) (pos : Nat) :
    Except DErr (List PVal × Nat) :=
  decodeStep data fuel (.wsStructElemProps acc t pos)

/-- Model of `StructProperty.read` (non-world-save part) with the ASA
cloud-inventory detection and the 17-byte ASA v6 padding skip for
non-native struct types. -/
def readStructProp (fuel : Nat) (hdr : PropertyHeader) (isAsa : Bool)
    (nt : NameTable) (ws : Bool) (data : Bytes) (pos : Nat) :
    Except DErr (PVal × Nat) :=
  decodeStep data fuel (.structProp hdr isAsa nt ws pos)

/-- Model of `StructProperty._read_worldsave_struct`. -/
def readWorldsaveStruct (fuel : Nat) (hdr : PropertyHeader) (nt : NameTable)
    (data : Bytes) (pos : Nat) : Except DErr (PVal × Nat) :=
  decodeStep data fuel (.wsStruct hdr nt pos)

/-- Model of `read_struct` (`arkparser/structs/registry.py`): optional
array-index skip, then native dispatch or the property-list fallback
(`StructPropertyList.read`). -/
def readStruct (fuel : Nat) (structType : String) (isAsa : Bool)
    (hasIdxPre : Bool) (nt : NameTable) (ws : Bool) (data : Bytes) (pos : Nat) :
    Except DErr (PVal × Nat) :=
  decodeStep data fuel (.structReq structType isAsa hasIdxPre nt ws pos)

/-- Model of `read_struct_for_array` (`arkparser/structs/registry.py`). -/
def readStructForArray (fuel : Nat) (arrayName : String) (isAsa : Bool)
    (nt : NameTable) (data : Bytes) (pos : Nat) : Except DErr (PVal × Nat) :=
  decodeStep data fuel (.structForArray arrayName isAsa nt pos)

/-- Model of `MapProperty.read` (non-world-save part): the Legacy/ASA
string framing stores the raw entry bytes with a placeholder note. -/
def readMapProp (fuel : Nat) (hdr : PropertyHeader) (isAsa : Bool)
    (nt : NameTable) (ws : Bool) (data : Bytes) (pos : Nat) :
    Except DErr (PVal × Nat) :=
  decodeStep data fuel (.mapProp hdr isAsa nt ws pos)

/-- Model of `MapProperty._read_worldsave_map`.  The entry loop's
`try/except` is modelled by recovering from any entry error except the
fuel artefact: the partial entries are kept and the position jumps to the
computed end of the map data when it lies beyond the failure point. -/
def readWorldsaveMap (fuel : Nat) (hdr : PropertyHeader) (nt : NameTable)
    (data : Bytes) (pos : Nat) : Except DErr (PVal × Nat) :=
  decodeStep data fuel (.wsMap hdr nt pos)

/-- The entry loop of `_read_worldsave_map`.  Failures carry the partial
entry dict and the failure position for the surrounding `except` clause. -/
def readWsMapEntries (fuel : Nat) (keyType valueType : String) (count : Nat)
    (acc : List PVal) (t : List (Int × String)) (data : Bytes) (pos : Nat) :
    Except (DErr × List PVal × Nat) (List PVal × Nat) :=
  match decodeStep data fuel (.wsMapEntries keyType valueType count acc t pos) with
  | .error e => .error (e, acc, pos)
  | .ok r => r


/-! ## Game objects and file framing
(`arkparser/game_objects/`, `arkparser/files/base.py`,
`arkparser/files/world_save.py`) -/

/-- Model of `LocationData` with float values carried as raw bit
patterns. -/
structure LocationData where
  x : Nat := 0
  y : Nat := 0
  z : Nat := 0
  pitch : Nat := 0
  yaw : Nat := 0
  roll : Nat := 0
  deriving Repr, DecidableEq

/-- Model of `LocationData.read`: six float32s in ASE, six float64s in
ASA. -/
def readLocationData (isAsa : Bool) (data : Bytes) (pos : Nat) :
    Except DErr (LocationData × Nat) := do
  let rd := if isAsa then readF64 else readF32
  let (x, p1) ← rd data pos
  let (y, p2) ← rd data p1
  let (z, p3) ← rd data p2
  let (pitch, p4) ← rd data p3
  let (yaw, p5) ← rd data p4
  let (roll, p6) ← rd data p5
  .ok ({ x := x, y := y, z := z, pitch := pitch, yaw := yaw, roll := roll }, p6)

/-- Model of the `GameObject` dataclass (the decode-relevant fields;
parent/component links are carried by the container linkage state). -/
structure GameObject where
  id : Int := 0
  guid : String := ""
  className : String := ""
  isItem : Bool := false
  names : List String := []
  fromDataFile : Bool := false
  dataFileIndex : Int := 0
  location : Option LocationData := none
  propertiesOffset : Int := 0
  properties : List PVal := []
  extraData : Option Bytes := none
  deriving Repr

/-- Loop reading `count` inline strings (the name arrays). -/
def readStringsLoop : Nat → Bytes → Nat → Except DErr (List String × Nat)
  | 0, _, pos => .ok ([], pos)
  | k + 1, data, pos => do
      let (s, p1) ← readString data pos
      let (rest, p2) ← readStringsLoop k data p1
      .ok (s :: rest, p2)

/-- Model of `GameObject.read_header` (the Legacy object header): GUID
(empty string when all zero), class name, is-item u32, name array,
from-data-file u32, data-file index, optional location, properties
offset, reserved int32. -/
def readGameObjectHeaderLegacy (objId : Int) (isAsa : Bool)
    (data : Bytes) (pos : Nat) : Except DErr (GameObject × Nat) := do
  let (guidBytes, p1) ← readBytes 16 data pos
  let guid := if guidBytes.any (· ≠ 0) then guidStrOfBytes guidBytes else ""
  let (className, p2) ← readString data p1
  let (isItemV, p3) ← readU32 data p2
  let (nameCount, p4) ← readI32 data p3
  let (names, p5) ← readStringsLoop nameCount.toNat data p4
  let (fromDataFileV, p6) ← readU32 data p5
  let (dataFileIndex, p7) ← readI32 data p6
  let (hasLocationV, p8) ← readU32 data p7
  let (location, p9) ←
    if hasLocationV ≠ 0 then
      (readLocationData isAsa data p8).map (fun r => (some r.1, r.2))
    else .ok ((none : Option LocationData), p8)
  let (propsOffset, p10) ← readI32 data p9
  let (_unknown, p11) ← readI32 data p10
  .ok ({ id := objId, guid := guid, className := className, isItem := isItemV ≠ 0,
         names := names, fromDataFile := fromDataFileV ≠ 0,
         dataFileIndex := dataFileIndex, location := location,
         propertiesOffset := propsOffset }, p11)

/-- Model of the ASA branch of `ArkFile._read_object_header`
(Modern profile/tribe/cloud object header): GUID, class name, unknown
int32, names, 12 padding bytes, stored offset int32, 4 padding bytes,
then an optional single zero terminator byte consumed only when
`version >= 7` and bytes remain; the effective properties offset is the
stored offset plus 1 for `version >= 7` and the stored offset itself
otherwise. -/
def readObjectHeaderAsa (objId : Int) (version : Int)
    (data : Bytes) (pos : Nat) : Except DErr (GameObject × Nat) := do
  let (guid, p1) ← readGuidStr data pos
  let (className, p2) ← readString data p1
  let (_field1, p3) ← readI32 data p2
  let (namesCount, p4) ← readI32 data p3
  let (names, p5) ← readStringsLoop namesCount.toNat data p4
  let (_, p6) ← skipR 12 data p5
  let (stored, p7) ← readI32 data p6
  let (_, p8) ← skipR 4 data p7
  let p9 :=
    if 7 ≤ version ∧ 0 < remainingI data p8 ∧ (peekBytes 1 data p8).headD 1 = 0 then p8 + 1
    else p8
  .ok ({ id := objId, guid := guid, className := className, names := names,
         propertiesOffset := stored + (if 7 ≤ version then 1 else 0) }, p9)

/-- Model of `ArkFile._read_object_header`: ASA branch or the Legacy
`GameObject.read_header`. -/
def readObjectHeader (objId : Int) (isAsa : Bool) (version : Int)
    (data : Bytes) (pos : Nat) : Except DErr (GameObject × Nat) :=
  if isAsa then readObjectHeaderAsa objId version data pos
  else readGameObjectHeaderLegacy objId false data pos

/-- Model of `GameObject.load_properties`: seek to
`properties_block_offset + properties_offset`, run `read_properties`
(non-world-save framing), and keep any bytes before the next object's
offset as `extra_data`. -/
def loadProperties (fuel : Nat) (obj : GameObject) (propertiesBlockOffset : Int)
    (isAsa : Bool) (nextObject : Option GameObject) (nt : NameTable)
    (data : Bytes) : Except DErr GameObject := do
  let offsetI : Int := propertiesBlockOffset + obj.propertiesOffset
  if offsetI < 0 then .error .valueErr
  else do
    let (props, pEnd) ← readProperties fuel isAsa nt false data offsetI.toNat
    match nextObject with
    | some nxt =>
        let nextOffset : Int := propertiesBlockOffset + nxt.propertiesOffset
        let remaining : Int := nextOffset - pEnd
        if 0 < remaining then do
          let (extra, _) ← readBytes remaining.toNat data pEnd
          .ok { obj with properties := props, extraData := some extra }
        else .ok { obj with properties := props }
    | none => .ok { obj with properties := props }

/-- The property-loading loop of `ArkFile._parse`
(`arkparser/files/base.py`): profile/tribe/cloud files load each
object's properties in turn with `properties_block_offset = 0` and no
try/except — the first failure aborts the whole parse. -/
def arkFileLoadAllProperties (fuel : Nat) (isAsa : Bool) (data : Bytes) :
    List GameObject → Except DErr (List GameObject)
  | [] => .ok []
  | o :: rest => do
      let o' ← loadProperties fuel o 0 isAsa rest.head? .inline data
      let rest' ← arkFileLoadAllProperties fuel isAsa data rest
      .ok (o' :: rest')

/-- Model of `WorldSave._read_ase_object_properties`: per-object
try/except that only counts failures in a local variable; the file's
`_parse_errors` list is not touched (returned unchanged).  On failure,
the object keeps its (empty) property list. -/
def readAseObjectProperties (fuel : Nat) (pbo : Int) (nt : NameTable)
    (data : Bytes) (parseErrors : List String) :
    List GameObject → List GameObject × Nat × List String
  | [] => ([], 0, parseErrors)
  | o :: rest =>
      let nextObj := rest.head?
      let (rs, f, es) := readAseObjectProperties fuel pbo nt data parseErrors rest
      match loadProperties fuel o pbo false nextObj nt data with
      | .ok o' => (o' :: rs, f, es)
      | .error _ => (o :: rs, f + 1, es)

/-- Abstraction of Python `str(e)` for the recorded error messages: the
claims only require that the message identifies the failure alongside the
GUID. -/
def errString : DErr → String
  | .endOfData => "end of data"
  | .structErr => "unpack requires more data"
  | .unicodeErr => "unicode decode error"
  | .valueErr => "value error"
  | .unknownProperty tn => "Unknown property type: " ++ tn
  | .outOfFuel => "recursion limit"

/-- Model of `WorldSave._parse_asa_game_object`: class-name key, names,
end marker, u16 item flag, then the property block.  A failure inside
`read_properties` is caught locally and recorded as a
`"Properties for {class} ({guid}): {e}"` message while the object (with
empty properties) is still returned; header failures propagate. -/
def parseAsaGameObject (fuel : Nat) (nameTable : List (Int × String))
    (guidStr : String) (blob : Bytes) (objId : Int) (loadProps : Bool) :
    Except DErr (GameObject × List String) := do
  let (classIdx, p1) ← readI32 blob 0
  let className := (dictGet nameTable classIdx).getD ("__UNKNOWN_CLASS_" ++ intRepr classIdx ++ "__")
  let (_classInst, p2) ← readI32 blob p1
  let (_zeros, p3) ← readI32 blob p2
  let (nameCount, p4) ← readI32 blob p3
  let (names, p5) ← readStringsLoop nameCount.toNat blob p4
  let (_endMarker, p6) ← readI32 blob p5
  if remainingI blob p6 < 2 then
    .ok ({ id := objId, guid := guidStr, className := className, names := names,
           isItem := false, propertiesOffset := (p6 : Int) }, [])
  else do
    let (marker, p7) ← readU16 blob p6
    let base : GameObject :=
      { id := objId, guid := guidStr, className := className, names := names,
        isItem := marker = 1, propertiesOffset := (p7 : Int) }
    if loadProps then
      match readProperties fuel true (.dict nameTable) true blob p7 with
      | .ok (props, _) => .ok ({ base with properties := props }, [])
      | .error e =>
          .ok (base, ["Properties for " ++ className ++ " (" ++ guidStr ++ "): " ++ errString e])
    else .ok (base, [])

/-- Python dict assignment for the by-GUID object map. -/
def guidMapInsert : List (String × GameObject) → String → GameObject → List (String × GameObject)
  | [], k, v => [(k, v)]
  | (k0, v0) :: rest, k, v =>
      if k0 = k then (k, v) :: rest else (k0, v0) :: guidMapInsert rest k v

/-- The mutable state of `WorldSave._read_asa_game_objects`: the object
list, the by-GUID map, the accumulated `_parse_errors`, and the running
object id (incremented only on success). -/
structure AsaDecodeState where
  objects : List GameObject := []
  objectsByGuid : List (String × GameObject) := []
  parseErrors : List String := []
  objId : Int := 0
  deriving Repr

/-- One iteration of the `_read_asa_game_objects` row loop: parse the
blob; on success attach any matching actor transform and append the
object; on failure record `"GUID {guid}: {e}"` and continue. -/
def asaRowStep (fuel : Nat) (nt : List (Int × String))
    (locs : String → Option LocationData) (st : AsaDecodeState)
    (row : Bytes × Bytes) : AsaDecodeState :=
  let guidStr := guidStrOfBytes row.1
  match parseAsaGameObject fuel nt guidStr row.2 st.objId true with
  | .ok (obj0, innerErrs) =>
      let obj :=
        match locs guidStr with
        | some l => { obj0 with location := some l }
        | none => obj0
      { objects := st.objects ++ [obj],
        objectsByGuid := guidMapInsert st.objectsByGuid guidStr obj,
        parseErrors := st.parseErrors ++ innerErrs,
        objId := st.objId + 1 }
  | .error e =>
      { st with parseErrors := st.parseErrors ++ ["GUID " ++ guidStr ++ ": " ++ errString e] }

/-- Model of `WorldSave._read_asa_game_objects`: fold the row loop over
the `game`-table rows (key blob, value blob) starting from the empty
state. -/
def readAsaGameObjects (fuel : Nat) (nt : List (Int × String))
    (locs : String → Option LocationData) (rows : List (Bytes × Bytes)) :
    AsaDecodeState :=
  rows.foldl (asaRowStep fuel nt locs) {}

/-! ## Container linkage (`arkparser/game_objects/container.py`) -/

/-- Python truthiness of `obj.primary_name`: a non-empty first name. -/
def primaryTruthy (o : GameObject) : Bool :=
  match o.names.head? with
  | some s => s ≠ ""
  | none => false

/-- The `_by_name` cache of `GameObjectContainer._build_caches`: objects
are inserted in list order under their primary name when it is truthy,
later insertions overwriting earlier ones; lookup of `n` returns the last
object index whose primary name is `n`. -/
def byNameIdx (objs : List GameObject) (n : String) : Option Nat :=
  (List.range objs.length).foldl
    (fun acc j =>
      match (objs.getD j {}).names.head? with
      | some s => if s ≠ "" ∧ s = n then some j else acc
      | none => acc)
    none

/-- The conditions under which `build_relationships` links object `i` to a
parent: at least two names, the by-name lookup of the last name succeeds,
and (inside `add_component`) the component's primary name is truthy. -/
def linksTo (objs : List GameObject) (i : Nat) : Option Nat :=
  let o := objs.getD i {}
  if 1 < o.names.length then
    match byNameIdx objs (o.names.getLastD "") with
    | some p => if primaryTruthy o then some p else none
    | none => none
  else none

/-- The parent/component link state produced by `build_relationships`:
`parent i` is the index of `i`'s parent object and `comps p k` the index
stored in object `p`'s components dict under key `k`. -/
structure LinkState where
  parent : Nat → Option Nat
  comps : Nat → String → Option Nat

/-- Model of `GameObjectContainer.build_relationships`: for each object
in order, look up the last name in the by-name cache and, when found and
the component's primary name is truthy, set the component's parent and
store it in the parent's components dict (overwriting an earlier entry
with the same key). -/
def linkStep (objs : List GameObject) (st : LinkState) (i : Nat) : LinkState :=
  match linksTo objs i with
  | some p =>
      let key := (objs.getD i {}).names.headD ""
      { parent := fun j => if j = i then some p else st.parent j,
        comps := fun q k => if q = p ∧ k = key then some i else st.comps q k }
  | none => st

/-- The loop of `build_relationships` over the object list. -/
def buildRelationships (objs : List GameObject) : LinkState :=
  (List.range objs.length).foldl (linkStep objs) ⟨fun _ => none, fun _ _ => none⟩

/-! ## Byte encoders

Encoders for well-formed wire fragments, used to quantify theorems over
"every valid input" constructively.  They are the inverses of the reader
primitives on their domains. -/

/-- Little-endian encoding of an unsigned 32-bit value. -/
def encU32 (n : Nat) : Bytes :=
  [n % 256, n / 256 % 256, n / 65536 % 256, n / 16777216 % 256]

/-- Little-endian two's-complement encoding of a signed 32-bit value. -/
def encI32 (i : Int) : Bytes := encU32 ((i % 4294967296).toNat)

/-- The wire form of a Latin-1 string: int32 length `len+1`, the bytes,
one null terminator. -/
def encStr (s : String) : Bytes :=
  encI32 ((s.length : Int) + 1) ++ s.toList.map Char.toNat ++ [0]

/-- Concatenated wire form of an inline string list. -/
def encStrList (names : List String) : Bytes :=
  (names.map encStr).flatten

/-- Strings encodable as Latin-1 with an int32 length prefix. -/
def StrEncodable (s : String) : Prop :=
  (∀ c ∈ s.toList, c.toNat < 256) ∧ (s.length : Int) + 1 < 2147483648

/-- A Legacy-framing property-list buffer used by the concrete witnesses:
one `IntProperty` named `Health` with value 7, then the `None` sentinel. -/
def demoPropListBytes : Bytes :=
  encStr "Health" ++ encStr "IntProperty" ++ encI32 4 ++ encI32 0 ++ encI32 7 ++ encStr "None"

/-- A world-save name table for the concrete witnesses. -/
def demoWsTable : List (Int × String) :=
  [(1, "None"), (2, "Health"), (3, "IntProperty")]

/-- A world-save property-list buffer for the concrete witnesses: one
`IntProperty` `Health = 7`, then the `None` sentinel key pair. -/
def demoWsPropListBytes : Bytes :=
  encI32 2 ++ encI32 0 ++ encI32 3 ++ encI32 0 ++
  encI32 0 ++ encI32 4 ++ [0] ++ encI32 7 ++ encI32 1 ++ encI32 0

/-- Objects exhibiting the two failure modes of the component-linkage
claim: `B` has an empty primary name, and `C1`/`C2` share the primary
name `"C"`. -/
def c9objsEmpty : List GameObject :=
  [{ names := ["P"] }, { names := ["", "P"] }]

/-- Objects for the duplicate-primary-name overwrite scenario. -/
def c9objsDup : List GameObject :=
  [{ names := ["P"] }, { names := ["C", "P"] }, { names := ["C", "P"] }]

/-- A well-linked object pair for the amended component-linkage witness. -/
def c9objsOk : List GameObject :=
  [{ names := ["P"] }, { names := ["C", "P"] }]

/-! ## Proof infrastructure: stream view of the reader -/

/-- The buffer seen from position `pos` is exactly `rest`. -/
def StreamAt (data : Bytes) (pos : Nat) (rest : Bytes) : Prop :=
  data.drop pos = rest ∧ pos ≤ data.length

theorem StreamAt.step {data : Bytes} {pos n : Nat} {xs rest : Bytes}
    (h : StreamAt data pos (xs ++ rest)) (hn : xs.length = n) :
    StreamAt data (pos + n) rest := by
  obtain ⟨hd, hp⟩ := h
  have hlen := congrArg List.length hd
  simp [List.length_drop] at hlen
  constructor
  · rw [← List.drop_drop, hd, ← hn, List.drop_left]
  · omega

theorem StreamAt.drop_eq {data : Bytes} {pos : Nat} {rest : Bytes}
    (h : StreamAt data pos rest) : data.drop pos = rest := h.1

theorem StreamAt.len {data : Bytes} {pos : Nat} {rest : Bytes}
    (h : StreamAt data pos rest) : data.length = pos + rest.length := by
  have hlen := congrArg List.length h.1
  simp [List.length_drop] at hlen
  have := h.2
  omega

theorem StreamAt.nil {data : Bytes} : StreamAt data 0 data := ⟨rfl, Nat.zero_le _⟩

theorem ok_bind {α β : Type} {a : α} {f : α → Except DErr β} :
    (Except.ok a >>= f) = f a := rfl

theorem error_bind {α β : Type} {e : DErr} {f : α → Except DErr β} :
    ((Except.error e : Except DErr α) >>= f) = .error e := rfl

theorem except_bind_ok {α β : Type} {x : Except DErr α} {f : α → Except DErr β} {b : β} :
    (x >>= f) = .ok b ↔ ∃ a, x = .ok a ∧ f a = .ok b := by
  cases x <;> simp [Bind.bind, Except.bind]

theorem readExact_stream {data : Bytes} {pos n : Nat} {xs rest : Bytes}
    (h : StreamAt data pos (xs ++ rest)) (hn : xs.length = n) :
    readExact n data pos = .ok (xs, pos + n) := by
  have hlen := h.len
  simp [List.length_append] at hlen
  unfold readExact
  rw [if_pos (by omega)]
  rw [h.drop_eq, ← hn, List.take_left]

theorem readBytes_stream {data : Bytes} {pos n : Nat} {xs rest : Bytes}
    (h : StreamAt data pos (xs ++ rest)) (hn : xs.length = n) :
    readBytes n data pos = .ok (xs, pos + n) := by
  have hlen := h.len
  simp [List.length_append] at hlen
  unfold readBytes remainingI
  rw [if_neg (by omega)]
  rw [h.drop_eq, ← hn, List.take_left]

theorem slice_stream {data : Bytes} {pos n : Nat} {xs rest : Bytes}
    (h : StreamAt data pos (xs ++ rest)) (hn : xs.length = n) :
    slice n data pos = .ok (xs, pos + n) := by
  have hlen := h.len
  simp [List.length_append] at hlen
  unfold slice remainingI
  rw [if_neg (by omega)]
  rw [h.drop_eq, ← hn, List.take_left]

theorem readULE_stream {data : Bytes} {pos n : Nat} {xs rest : Bytes}
    (h : StreamAt data pos (xs ++ rest)) (hn : xs.length = n) :
    readULE n data pos = .ok (leVal xs, pos + n) := by
  unfold readULE
  rw [readExact_stream h hn]
  rfl

theorem readU8_stream {data : Bytes} {pos : Nat} {b : Nat} {rest : Bytes}
    (h : StreamAt data pos (b :: rest)) :
    readU8 data pos = .ok (b, pos + 1) := by
  have hx : StreamAt data pos ([b] ++ rest) := by simpa using h
  have := readULE_stream hx (show ([b] : Bytes).length = 1 from rfl)
  simpa [readU8, leVal] using this

theorem readU16_stream {data : Bytes} {pos : Nat} {b0 b1 : Nat} {rest : Bytes}
    (h : StreamAt data pos (b0 :: b1 :: rest)) :
    readU16 data pos = .ok (b0 + 256 * b1, pos + 2) := by
  have hx : StreamAt data pos ([b0, b1] ++ rest) := by simpa using h
  have := readULE_stream hx (show ([b0, b1] : Bytes).length = 2 from rfl)
  simpa [readU16, leVal] using this

theorem leVal_encU32 (m : Nat) : leVal (encU32 m) = m % 4294967296 := by
  simp [leVal, encU32]
  omega

theorem encU32_length (m : Nat) : (encU32 m).length = 4 := rfl

theorem encI32_length (i : Int) : (encI32 i).length = 4 := rfl

theorem readU32_stream {data : Bytes} {pos : Nat} {m : Nat} {rest : Bytes}
    (h : StreamAt data pos (encU32 m ++ rest)) (hm : m < 4294967296) :
    readU32 data pos = .ok (m, pos + 4) := by
  have := readULE_stream h (encU32_length m)
  rw [leVal_encU32, Nat.mod_eq_of_lt hm] at this
  exact this

theorem readI32_stream {data : Bytes} {pos : Nat} {i : Int} {rest : Bytes}
    (h : StreamAt data pos (encI32 i ++ rest))
    (hlo : -2147483648 ≤ i) (hhi : i < 2147483648) :
    readI32 data pos = .ok (i, pos + 4) := by
  have h1 := readULE_stream h (encI32_length i)
  have hle : leVal (encI32 i) = (i % 4294967296).toNat % 4294967296 := by
    rw [encI32, leVal_encU32]
  rw [hle] at h1
  have hval : toSigned 32 ((i % 4294967296).toNat % 4294967296) = i := by
    unfold toSigned
    have h0 : (0 : Int) ≤ i % 4294967296 := Int.emod_nonneg i (by norm_num)
    have h2 : i % 4294967296 < 4294967296 := Int.emod_lt_of_pos i (by norm_num)
    split <;> omega
  unfold readI32
  rw [h1]
  simp only [Except.map]
  rw [hval]

theorem skipR_nonneg {data : Bytes} {pos : Nat} {k : Int} (hk : 0 ≤ k) :
    skipR k data pos = .ok ((), pos + k.toNat) := by
  unfold skipR
  rw [if_neg (by omega)]
  have h : ((pos : Int) + k).toNat = pos + k.toNat := by omega
  rw [h]

theorem readGuidStr_stream {data : Bytes} {pos : Nat} {g rest : Bytes}
    (h : StreamAt data pos (g ++ rest)) (hg : g.length = 16) :
    readGuidStr data pos = .ok (guidStrOfBytes g, pos + 16) := by
  unfold readGuidStr
  rw [readBytes_stream h hg]
  rfl

theorem latin1_roundtrip (s : String) : latin1Str (s.toList.map Char.toNat) = s := by
  unfold latin1Str latin1Char
  rw [List.map_map]
  have h : ∀ l : List Char, l.map (Char.ofNat ∘ Char.toNat) = l := by
    intro l
    induction l with
    | nil => rfl
    | cons c tl ih => simp [ih, Char.ofNat_toNat]
  rw [String.toList] at *
  rw [h]

theorem encStr_length (s : String) : (encStr s).length = s.length + 5 := by
  unfold encStr
  rw [List.length_append, List.length_append, encI32_length, List.length_map,
    List.length_singleton]
  have h : s.toList.length = s.length := rfl
  rw [h]
  omega

theorem String.one_le_length_of_ne_empty {s : String} (hs : s ≠ "") : 1 ≤ s.length := by
  cases s with
  | mk l =>
    cases l with
    | nil => exact absurd rfl hs
    | cons a tl =>
      show 1 ≤ (a :: tl).length
      simp

theorem readString_stream {data : Bytes} {pos : Nat} {s : String} {rest : Bytes}
    (h : StreamAt data pos (encStr s ++ rest)) (he : StrEncodable s) :
    readString data pos = .ok (s, pos + (s.length + 5)) := by
  have hL : StreamAt data pos
      (encI32 ((s.length : Int) + 1) ++ ((s.toList.map Char.toNat ++ [0]) ++ rest)) := by
    have h2 := h
    unfold encStr at h2
    simpa [List.append_assoc] using h2
  have h1 := readI32_stream hL (by omega) (by have := he.2; omega)
  have hs2 : StreamAt data (pos + 4) ((s.toList.map Char.toNat ++ [0]) ++ rest) :=
    hL.step (encI32_length _)
  unfold readString
  rw [h1, ok_bind]
  dsimp only
  by_cases hs0 : s = ""
  · subst hs0
    have hz : (String.length "" : Int) + 1 = 1 := by norm_num
    rw [hz]
    rw [if_neg (by norm_num), if_pos rfl]
    rw [skipR_nonneg (by norm_num), ok_bind]
    rfl
  · have hlen1 : 1 ≤ s.length := String.one_le_length_of_ne_empty hs0
    rw [if_neg (by omega), if_neg (by omega), if_neg (by omega), if_neg (by omega)]
    have hpl : (s.toList.map Char.toNat ++ [0]).length = ((s.length : Int) + 1).toNat := by
      rw [List.length_append, List.length_map, List.length_singleton]
      have h3 : s.toList.length = s.length := rfl
      rw [h3]
      omega
    have hrb := readBytes_stream hs2 hpl
    rw [hrb, ok_bind]
    dsimp only
    rw [List.dropLast_concat, latin1_roundtrip]
    have hpos : pos + 4 + ((s.length : Int) + 1).toNat = pos + (s.length + 5) := by omega
    rw [hpos]

theorem encStrList_cons (nm : String) (tl : List String) :
    encStrList (nm :: tl) = encStr nm ++ encStrList tl := by
  simp [encStrList]

theorem readStringsLoop_stream {data : Bytes} {pos : Nat} {names : List String} {rest : Bytes}
    (h : StreamAt data pos (encStrList names ++ rest))
    (he : ∀ nm ∈ names, StrEncodable nm) :
    readStringsLoop names.length data pos = .ok (names, pos + (encStrList names).length) := by
  induction names generalizing pos with
  | nil => simp [readStringsLoop, encStrList]
  | cons nm tl ih =>
      have hass : StreamAt data pos (encStr nm ++ (encStrList tl ++ rest)) := by
        simpa [encStrList_cons, List.append_assoc] using h
      have h1 := readString_stream hass (he nm (by simp))
      have hs2 : StreamAt data (pos + (nm.length + 5)) (encStrList tl ++ rest) :=
        hass.step (encStr_length nm)
      have h2 := ih hs2 (fun x hx => he x (by simp [hx]))
      show readStringsLoop (tl.length + 1) data pos = _
      simp only [readStringsLoop]
      rw [h1, ok_bind]
      dsimp only
      rw [h2, ok_bind]
      dsimp only
      rw [encStrList_cons, List.length_append, encStr_length]
      have harith : pos + (nm.length + 5) + (encStrList tl).length =
          pos + (nm.length + 5 + (encStrList tl).length) := by omega
      rw [harith]

/-- C2.  The string decoder law of `BinaryReader.read_string`: a signed
int32 length prefix `L`; `L = 0` yields the empty string consuming only
the prefix; `L = 1` consumes one null byte; `L = -1` consumes two null
bytes; `L > 0` reads `L` bytes and decodes them as Latin-1 with the last
byte (the null terminator) stripped; `L < 0` reads `2·|L|` bytes and
decodes them as UTF-16-LE with the trailing two-byte null stripped. -/
theorem read_string_decoder_law :
    (∀ rest : Bytes, readString (encI32 0 ++ rest) 0 = .ok ("", 4)) ∧
    (∀ rest : Bytes, readString (encI32 1 ++ ([0] ++ rest)) 0 = .ok ("", 5)) ∧
    (∀ rest : Bytes, readString (encI32 (-1) ++ ([0, 0] ++ rest)) 0 = .ok ("", 6)) ∧
    (∀ (L : Int) (payload rest : Bytes), 0 < L → L < 2147483648 →
      payload.length = L.toNat →
      readString (encI32 L ++ (payload ++ rest)) 0 =
        .ok (latin1Str payload.dropLast, 4 + L.toNat)) ∧
    (∀ (L : Int) (payload rest : Bytes) (us : List Nat) (cs : List Char),
      L < -1 → -2147483648 ≤ L → payload.length = L.natAbs * 2 →
      utf16Units payload.dropLast.dropLast = some us →
      utf16DecodeUnits us = some cs →
      readString (encI32 L ++ (payload ++ rest)) 0 = .ok (⟨cs⟩, 4 + L.natAbs * 2)) := by
  refine ⟨?_, ?_, ?_, ?_, ?_⟩
  · intro rest
    have h1 := readI32_stream (i := 0)
      (StreamAt.nil : StreamAt (encI32 0 ++ rest) 0 (encI32 0 ++ rest))
      (by norm_num) (by norm_num)
    unfold readString
    rw [Nat.zero_add] at h1
    rw [h1, ok_bind]
    rfl
  · intro rest
    have h1 := readI32_stream (i := 1)
      (StreamAt.nil : StreamAt (encI32 1 ++ ([0] ++ rest)) 0 (encI32 1 ++ ([0] ++ rest)))
      (by norm_num) (by norm_num)
    unfold readString
    rw [Nat.zero_add] at h1
    rw [h1, ok_bind]
    dsimp only
    rw [if_neg (by norm_num), if_pos rfl]
    rw [skipR_nonneg (by norm_num), ok_bind]
    rfl
  · intro rest
    have h1 := readI32_stream (i := -1)
      (StreamAt.nil :
        StreamAt (encI32 (-1) ++ ([0, 0] ++ rest)) 0 (encI32 (-1) ++ ([0, 0] ++ rest)))
      (by norm_num) (by norm_num)
    unfold readString
    rw [Nat.zero_add] at h1
    rw [h1, ok_bind]
    dsimp only
    rw [if_neg (by norm_num), if_neg (by norm_num), if_pos rfl]
    rw [skipR_nonneg (by norm_num), ok_bind]
    rfl
  · intro L payload rest hpos hhi hlen
    have h1 := readI32_stream (i := L)
      (StreamAt.nil :
        StreamAt (encI32 L ++ (payload ++ rest)) 0 (encI32 L ++ (payload ++ rest)))
      (by omega) hhi
    rw [Nat.zero_add] at h1
    have hs2 : StreamAt (encI32 L ++ (payload ++ rest)) 4 (payload ++ rest) := by
      have := (StreamAt.nil :
        StreamAt (encI32 L ++ (payload ++ rest)) 0 (encI32 L ++ (payload ++ rest))).step
        (encI32_length L)
      simpa using this
    unfold readString
    rw [h1, ok_bind]
    dsimp only
    by_cases hL1 : L = 1
    · subst hL1
      rw [if_neg (by norm_num), if_pos rfl]
      rw [skipR_nonneg (by norm_num), ok_bind]
      match payload, hlen with
      | [b], _ => rfl
    · rw [if_neg (by omega), if_neg (by simpa using hL1), if_neg (by omega),
        if_neg (by omega)]
      have hrb := readBytes_stream hs2 hlen
      rw [hrb, ok_bind]
  · intro L payload rest us cs hneg hlo hlen hu hd
    have h1 := readI32_stream (i := L)
      (StreamAt.nil :
        StreamAt (encI32 L ++ (payload ++ rest)) 0 (encI32 L ++ (payload ++ rest)))
      hlo (by omega)
    rw [Nat.zero_add] at h1
    have hs2 : StreamAt (encI32 L ++ (payload ++ rest)) 4 (payload ++ rest) := by
      have := (StreamAt.nil :
        StreamAt (encI32 L ++ (payload ++ rest)) 0 (encI32 L ++ (payload ++ rest))).step
        (encI32_length L)
      simpa using this
    unfold readString
    rw [h1, ok_bind]
    dsimp only
    rw [if_neg (by omega), if_neg (by omega), if_neg (by omega), if_pos (by omega)]
    have hrb := readBytes_stream hs2 hlen
    rw [hrb, ok_bind]
    dsimp only
    rw [hu]
    dsimp only
    rw [hd]

/-- Witness for C2: concrete decodes for `L = 2` (Latin-1 `"A"`) and
`L = -3` (UTF-16 `"Hi"`), with every hypothesis discharged at the
concrete input. -/
theorem read_string_decoder_law_witness :
    ((0 : Int) < 2 ∧ ([65, 0] : Bytes).length = (2 : Int).toNat ∧
      readString (encI32 2 ++ ([65, 0] ++ [])) 0 = .ok ("A", 6)) ∧
    ((-3 : Int) < -1 ∧ ([72, 0, 105, 0, 0, 0] : Bytes).length = (-3 : Int).natAbs * 2 ∧
      readString (encI32 (-3) ++ ([72, 0, 105, 0, 0, 0] ++ [])) 0 = .ok ("Hi", 10)) := by
  refine ⟨⟨by norm_num, rfl, ?_⟩, ⟨by norm_num, rfl, ?_⟩⟩
  · have h := read_string_decoder_law.2.2.2.1 2 [65, 0] [] (by norm_num) (by norm_num) rfl
    exact h.trans rfl
  · have h := read_string_decoder_law.2.2.2.2 (-3) [72, 0, 105, 0, 0, 0] []
      [72, 105] ['H', 'i'] (by norm_num) (by norm_num) (by decide) (by decide) (by decide)
    exact h.trans rfl

theorem readI32_stream_any {data : Bytes} {pos : Nat} {xs rest : Bytes}
    (h : StreamAt data pos (xs ++ rest)) (hb : xs.length = 4) :
    readI32 data pos = .ok (toSigned 32 (leVal xs), pos + 4) := by
  unfold readI32
  rw [readULE_stream h hb]
  rfl

theorem and_one_ne_zero_iff (n : Nat) : (n &&& 1 ≠ 0) ↔ n.testBit 0 = true := by
  rw [show (1 : Nat) = 2 ^ 0 from rfl, Nat.and_two_pow]
  cases h : n.testBit 0 <;> simp

theorem decide_and_sixteen (n : Nat) : (decide (n &&& 16 ≠ 0)) = n.testBit 4 := by
  rw [show (16 : Nat) = 2 ^ 4 from rfl, Nat.and_two_pow]
  cases h : n.testBit 4 <;> simp

theorem wsSimpleHeader_stream {data : Bytes} {pos : Nat} {pad : Bytes}
    {ds idx : Int} {flag : Nat} {rest : Bytes}
    (h : StreamAt data pos (pad ++ (encI32 ds ++ ([flag] ++
      ((if flag.testBit 0 then encI32 idx else []) ++ rest)))))
    (hp : pad.length = 4)
    (hdslo : -2147483648 ≤ ds) (hdshi : ds < 2147483648)
    (hidxlo : -2147483648 ≤ idx) (hidxhi : idx < 2147483648) :
    readWorldsaveSimpleHeader data pos =
      .ok ((ds, flag, if flag.testBit 0 then idx else 0),
        pos + (if flag.testBit 0 then 13 else 9)) := by
  have h1 := readI32_stream_any h hp
  have hs2 := h.step hp
  have h2 := readI32_stream hs2 hdslo hdshi
  have hs3 := hs2.step (encI32_length ds)
  have hflag : StreamAt data (pos + 4 + 4)
      (flag :: ((if flag.testBit 0 then encI32 idx else []) ++ rest)) := by
    simpa using hs3
  have h3 := readU8_stream hflag
  have hs4 : StreamAt data (pos + 4 + 4 + 1)
      ((if flag.testBit 0 then encI32 idx else []) ++ rest) := by
    have := hflag.step (show ([flag] : Bytes).length = 1 from rfl)
    simpa using this
  unfold readWorldsaveSimpleHeader
  rw [h1, ok_bind]
  dsimp only
  rw [h2, ok_bind]
  dsimp only
  rw [h3, ok_bind]
  dsimp only
  by_cases hb : flag.testBit 0
  · rw [if_pos ((and_one_ne_zero_iff flag).mpr hb)]
    rw [if_pos hb] at hs4
    have h4 := readI32_stream hs4 hidxlo hidxhi
    rw [h4, ok_bind]
    dsimp only
    rw [if_pos hb, if_pos hb]
  · rw [if_neg (fun hc => hb ((and_one_ne_zero_iff flag).mp hc))]
    rw [if_neg hb, if_neg hb]

/-- C3.  Modern world-save simple-property payload decoding
(`_read_worldsave_simple_prefix` and `BoolProperty.read`): after the 4
padding bytes and the int32 data size comes a flag byte; `has_index` is
bit 0 (`0x01`) of that byte — exactly then an int32 array index follows
and becomes the decoded index, otherwise the index is 0 — and for
`BoolProperty` the decoded boolean is bit 4 (`0x10`) of the flag byte. -/
theorem worldsave_flag_byte_decoding
    (hdr : PropertyHeader) (data : Bytes) (pos : Nat) (pad : Bytes)
    (ds idx : Int) (flag : Nat) (rest : Bytes)
    (h : StreamAt data pos (pad ++ (encI32 ds ++ ([flag] ++
      ((if flag.testBit 0 then encI32 idx else []) ++ rest)))))
    (hp : pad.length = 4)
    (hdslo : -2147483648 ≤ ds) (hdshi : ds < 2147483648)
    (hidxlo : -2147483648 ≤ idx) (hidxhi : idx < 2147483648) :
    readWorldsaveSimpleHeader data pos =
      .ok ((ds, flag, if flag.testBit 0 then idx else 0),
        pos + (if flag.testBit 0 then 13 else 9)) ∧
    readBoolProp hdr true true data pos =
      .ok (.vProp hdr.name "BoolProperty" (if flag.testBit 0 then idx else 0)
            (.vBool (flag.testBit 4)),
        pos + (if flag.testBit 0 then 13 else 9)) := by
  have hmain := wsSimpleHeader_stream h hp hdslo hdshi hidxlo hidxhi
  refine ⟨hmain, ?_⟩
  unfold readBoolProp
  rw [if_pos rfl]
  rw [hmain, ok_bind]
  dsimp only
  rw [decide_and_sixteen]

/-- Witness for C3: flag byte `0x11` (bits 0 and 4 set) with array index
5 decodes to index 5 and value `true`, consuming 13 bytes. -/
theorem worldsave_flag_byte_decoding_witness :
    readBoolProp ⟨"B", "BoolProperty", 0, 0⟩ true true
      ([0, 0, 0, 0] ++ (encI32 0 ++ ([17] ++
        ((if (17 : Nat).testBit 0 then encI32 5 else []) ++ [])))) 0 =
      .ok (.vProp "B" "BoolProperty" 5 (.vBool true), 13) := by
  have h := (worldsave_flag_byte_decoding ⟨"B", "BoolProperty", 0, 0⟩
      ([0, 0, 0, 0] ++ (encI32 0 ++ ([17] ++
        ((if (17 : Nat).testBit 0 then encI32 5 else []) ++ [])))) 0
      [0, 0, 0, 0] 0 5 17 []
      ⟨rfl, Nat.zero_le _⟩ rfl (by norm_num) (by norm_num) (by norm_num)
      (by norm_num)).2
  exact h.trans (by rfl)

/-- Counterexample to C6 as stated.  With a one-entry list table and the
stored index 0 (out of range), `_read_name_from_list_table` returns the
diagnostic placeholder after consuming only the 4-byte index — the
instance int32 is never read — and likewise for a dict table with an
absent key.  The claim asserted both int32s (8 bytes) are always
consumed. -/
theorem name_table_lookup_counterexample :
    readNameFromListTable ["A"] (encI32 0 ++ encI32 0) 0 =
      .ok ("__INVALID_NAME_INDEX_0__", 4) ∧
    readNameFromDictTable [(5, "X")] (encI32 7 ++ encI32 0) 0 =
      .ok ("__UNKNOWN_NAME_7__", 4) ∧
    (4 : Nat) ≠ 0 + 8 := by
  exact ⟨rfl, rfl, by decide⟩

/-- C6 (amended).  Reading a name against a list or dict table never
fails once the int32s it touches are readable: on a successful lookup it
consumes exactly the `(index, instance)` pair of two int32s and resolves
the entry (appending `_(instance-1)` for a positive instance); on an
out-of-range index or absent key it consumes only the 4-byte index and
returns the diagnostic placeholder instead of raising. -/
theorem name_table_lookup_amended
    (table : List String) (dtable : List (Int × String)) (data : Bytes)
    (pos : Nat) (idx key inst : Int)
    (h1 : readI32 data pos = .ok (idx, pos + 4))
    (h1d : readI32 data pos = .ok (key, pos + 4))
    (h2 : readI32 data (pos + 4) = .ok (inst, pos + 8)) :
    ((1 ≤ idx ∧ idx ≤ (table.length : Int)) →
      readNameFromListTable table data pos =
        .ok ((if 0 < inst then table.getD (idx - 1).toNat "" ++ "_" ++ intRepr (inst - 1)
              else table.getD (idx - 1).toNat ""), pos + 8)) ∧
    (¬(1 ≤ idx ∧ idx ≤ (table.length : Int)) →
      readNameFromListTable table data pos =
        .ok ("__INVALID_NAME_INDEX_" ++ intRepr idx ++ "__", pos + 4)) ∧
    (∀ nm, dictGet dtable key = some nm →
      readNameFromDictTable dtable data pos =
        .ok ((if 0 < inst then nm ++ "_" ++ intRepr (inst - 1) else nm), pos + 8)) ∧
    (dictGet dtable key = none →
      readNameFromDictTable dtable data pos =
        .ok ("__UNKNOWN_NAME_" ++ intRepr key ++ "__", pos + 4)) := by
  refine ⟨?_, ?_, ?_, ?_⟩
  · intro hin
    unfold readNameFromListTable
    rw [h1, ok_bind]
    dsimp only
    rw [if_neg (by omega)]
    rw [h2, ok_bind]
    dsimp only
    by_cases hi : 0 < inst
    · rw [if_pos hi, if_pos hi]
    · rw [if_neg hi, if_neg hi]
  · intro hout
    unfold readNameFromListTable
    rw [h1, ok_bind]
    dsimp only
    rw [if_pos (by omega)]
  · intro nm hnm
    unfold readNameFromDictTable
    rw [h1d, ok_bind]
    dsimp only
    rw [hnm]
    dsimp only
    rw [h2, ok_bind]
    dsimp only
    by_cases hi : 0 < inst
    · rw [if_pos hi, if_pos hi]
    · rw [if_neg hi, if_neg hi]
  · intro hnone
    unfold readNameFromDictTable
    rw [h1d, ok_bind]
    dsimp only
    rw [hnone]

/-- Witness for the amended C6: a valid index (1) with instance 3
resolves to `"A_2"` consuming 8 bytes, and an absent dict key (7)
yields the placeholder consuming 4 bytes. -/
theorem name_table_lookup_amended_witness :
    ((1 : Int) ≤ 1 ∧ (1 : Int) ≤ (["A"].length : Int)) ∧
    readNameFromListTable ["A"] (encI32 1 ++ encI32 3) 0 = .ok ("A_2", 8) ∧
    dictGet [(5, "X")] 7 = none ∧
    readNameFromDictTable [(5, "X")] (encI32 7 ++ encI32 3) 0 =
      .ok ("__UNKNOWN_NAME_7__", 4) := by
  refine ⟨by norm_num, ?_, rfl, ?_⟩
  · have h := (name_table_lookup_amended ["A"] [(5, "X")] (encI32 1 ++ encI32 3)
      0 1 1 3 rfl rfl rfl).1 (by norm_num)
    exact h.trans (by rfl)
  · have h := (name_table_lookup_amended ["A"] [(5, "X")] (encI32 7 ++ encI32 3)
      0 7 7 3 rfl rfl rfl).2.2.2 rfl
    exact h

/-- Counterexample to C7 as stated.  `read_int32` on an exhausted reader
raises `struct.error` (a short `stream.read` fed to `struct.unpack`),
not the `EndOfDataError` the claim asserts for every reader operation. -/
theorem reader_eof_counterexample :
    readI32 [] 0 = .error .structErr ∧
    DErr.structErr ≠ DErr.endOfData := by
  exact ⟨rfl, by decide⟩

/-- C7 (amended).  End-of-buffer behaviour of the reader: `read_bytes`,
`slice` and `read_guid` fail with `EndOfDataError` when more bytes are
requested than remain, and so does `read_string` when its payload
exceeds the remaining bytes; the fixed-width primitive reads
(`read_u8/16/32/64`, `read_i8/16/32/64`, `read_float`, `read_double`)
and `read_string`'s int32 length prefix instead fail with
`struct.error` when fewer bytes than the width remain. -/
theorem reader_eof_amended (data : Bytes) (pos n : Nat) :
    ((n : Int) > remainingI data pos →
      readBytes n data pos = .error .endOfData ∧
      slice n data pos = .error .endOfData) ∧
    (remainingI data pos < 16 → readGuidStr data pos = .error .endOfData) ∧
    (data.length < pos + 1 →
      readU8 data pos = .error .structErr ∧ readI8 data pos = .error .structErr) ∧
    (data.length < pos + 2 →
      readU16 data pos = .error .structErr ∧ readI16 data pos = .error .structErr) ∧
    (data.length < pos + 4 →
      readU32 data pos = .error .structErr ∧ readI32 data pos = .error .structErr ∧
      readF32 data pos = .error .structErr ∧ readString data pos = .error .structErr) ∧
    (data.length < pos + 8 →
      readU64 data pos = .error .structErr ∧ readI64 data pos = .error .structErr ∧
      readF64 data pos = .error .structErr) ∧
    (∀ (L : Int) (payload : Bytes), 1 < L → L < 2147483648 →
      (payload.length : Int) < L →
      readString (encI32 L ++ payload) 0 = .error .endOfData) := by
  have hexact : ∀ k, data.length < pos + k → readExact k data pos = .error .structErr := by
    intro k hk
    unfold readExact
    rw [if_neg (by omega)]
  have hule : ∀ k, data.length < pos + k → readULE k data pos = .error .structErr := by
    intro k hk
    unfold readULE
    rw [hexact k hk]
    rfl
  refine ⟨?_, ?_, ?_, ?_, ?_, ?_, ?_⟩
  · intro h
    constructor
    · unfold readBytes
      rw [if_pos h]
    · unfold slice
      rw [if_pos h]
  · intro h
    unfold readGuidStr readBytes
    rw [if_pos (by unfold remainingI at *; omega)]
    rfl
  · intro h
    refine ⟨hule 1 h, ?_⟩
    unfold readI8
    rw [hule 1 h]
    rfl
  · intro h
    refine ⟨hule 2 h, ?_⟩
    unfold readI16
    rw [hule 2 h]
    rfl
  · intro h
    refine ⟨hule 4 h, ?_, hule 4 h, ?_⟩
    · unfold readI32
      rw [hule 4 h]
      rfl
    · unfold readString readI32
      rw [hule 4 h]
      rfl
  · intro h
    refine ⟨hule 8 h, ?_, hule 8 h⟩
    unfold readI64
    rw [hule 8 h]
    rfl
  · intro L payload h1 h2 h3
    have hs : StreamAt (encI32 L ++ payload) 0 (encI32 L ++ payload) := StreamAt.nil
    have hI := readI32_stream hs (by omega) h2
    rw [Nat.zero_add] at hI
    unfold readString
    rw [hI, ok_bind]
    dsimp only
    rw [if_neg (by omega), if_neg (by omega), if_neg (by omega), if_neg (by omega)]
    have hrb : readBytes L.toNat (encI32 L ++ payload) 4 = .error .endOfData := by
      unfold readBytes remainingI
      rw [if_pos (by simp [encI32, encU32]; omega)]
    rw [hrb]
    rfl

/-- Witness for the amended C7: every hypothesis discharged on the
one-byte buffer `[0]` at position 1 and on a short string payload. -/
theorem reader_eof_amended_witness :
    ((2 : Int) > remainingI [0] 1 ∧ readBytes 2 [0] 1 = .error .endOfData) ∧
    (([0] : Bytes).length < 1 + 4 ∧ readI32 [0] 1 = .error .structErr) ∧
    (((([0] : Bytes)).length : Int) < 2 ∧
      readString (encI32 2 ++ [0]) 0 = .error .endOfData) := by
  have h := reader_eof_amended [0] 1 2
  refine ⟨⟨by norm_num [remainingI], (h.1 (by norm_num [remainingI])).1⟩,
          ⟨by norm_num, (h.2.2.2.2.1 (by norm_num)).2.1⟩,
          ⟨by norm_num, h.2.2.2.2.2.2 2 [0] (by norm_num) (by norm_num) (by norm_num)⟩⟩

theorem digitChar_toNat {n : Nat} (h : n < 10) : (digitChar n).toNat = 48 + n := by
  interval_cases n <;> decide

theorem digitChar_isDigit {n : Nat} (h : n < 10) : (digitChar n).isDigit = true := by
  interval_cases n <;> decide

theorem natToDigitsAux_acc (fuel : Nat) : ∀ n acc, n < fuel →
    natToDigitsAux fuel n acc = natToDigitsAux fuel n [] ++ acc := by
  induction fuel with
  | zero => intro n acc h; omega
  | succ f ih =>
      intro n acc h
      by_cases h10 : n < 10
      · simp [natToDigitsAux, h10]
      · have hdiv : n / 10 < f := by
          have := Nat.div_lt_self (n := n) (by omega) (by omega : (1 : Nat) < 10)
          omega
        simp only [natToDigitsAux, if_neg h10]
        rw [ih (n / 10) (digitChar (n % 10) :: acc) hdiv,
          ih (n / 10) [digitChar (n % 10)] hdiv]
        simp

theorem natToDigitsAux_fuel : ∀ f1 f2 n acc, n < f1 → n < f2 →
    natToDigitsAux f1 n acc = natToDigitsAux f2 n acc := by
  intro f1
  induction f1 with
  | zero => intro f2 n acc h1 h2; omega
  | succ f ih =>
      intro f2 n acc h1 h2
      cases f2 with
      | zero => omega
      | succ g =>
          by_cases h10 : n < 10
          · simp [natToDigitsAux, h10]
          · have hdivf : n / 10 < f := by
              have := Nat.div_lt_self (n := n) (by omega) (by omega : (1 : Nat) < 10)
              omega
            have hdivg : n / 10 < g := by
              have := Nat.div_lt_self (n := n) (by omega) (by omega : (1 : Nat) < 10)
              omega
            simp only [natToDigitsAux, if_neg h10]
            exact ih g (n / 10) _ hdivf hdivg

theorem natToDigits_eq (n : Nat) : natToDigits n =
    if n < 10 then [digitChar n] else natToDigits (n / 10) ++ [digitChar (n % 10)] := by
  unfold natToDigits
  by_cases h10 : n < 10
  · simp [natToDigitsAux, h10]
  · have hdiv : n / 10 < n := Nat.div_lt_self (by omega) (by omega)
    simp only [natToDigitsAux, if_neg h10]
    rw [natToDigitsAux_acc n (n / 10) [digitChar (n % 10)] (by omega),
      natToDigitsAux_fuel n (n / 10 + 1) (n / 10) [] (by omega) (by omega)]
    simp only [natToDigitsAux]

theorem natToDigits_ne_nil (n : Nat) : natToDigits n ≠ [] := by
  rw [natToDigits_eq]
  split <;> simp

theorem natToDigits_digits (n : Nat) : ∀ c ∈ natToDigits n, c.isDigit = true := by
  induction n using Nat.strong_induction_on with
  | _ n ih =>
      rw [natToDigits_eq]
      by_cases h10 : n < 10
      · rw [if_pos h10]
        intro c hc
        simp at hc
        subst hc
        exact digitChar_isDigit h10
      · rw [if_neg h10]
        intro c hc
        rw [List.mem_append] at hc
        rcases hc with hc | hc
        · exact ih (n / 10) (Nat.div_lt_self (by omega) (by omega)) c hc
        · simp at hc
          subst hc
          exact digitChar_isDigit (Nat.mod_lt n (by omega))

theorem digitsToNat_append (l : List Char) (c : Char) :
    digitsToNat (l ++ [c]) = 10 * digitsToNat l + (c.toNat - 48) := by
  simp [digitsToNat, List.foldl_append]
  omega

theorem digitsToNat_natToDigits (n : Nat) : digitsToNat (natToDigits n) = n := by
  induction n using Nat.strong_induction_on with
  | _ n ih =>
      rw [natToDigits_eq]
      by_cases h10 : n < 10
      · rw [if_pos h10]
        simp [digitsToNat, digitChar_toNat h10]
      · rw [if_neg h10, digitsToNat_append,
          ih (n / 10) (Nat.div_lt_self (by omega) (by omega)),
          digitChar_toNat (Nat.mod_lt n (by omega))]
        omega

theorem takeWhile_all_append {P : Char → Bool} (xs : List Char) (y : Char) (ys : List Char)
    (hall : ∀ x ∈ xs, P x = true) (hy : P y = false) :
    List.takeWhile P (xs ++ y :: ys) = xs := by
  induction xs with
  | nil => simp [List.takeWhile_cons, hy]
  | cons a tl ih =>
      simp only [List.cons_append, List.takeWhile_cons, hall a (by simp)]
      rw [ih (fun x hx => hall x (by simp [hx]))]
      simp

theorem string_data_ne_nil {p : String} (hp : p ≠ "") : p.data ≠ [] := by
  intro h
  apply hp
  cases p with
  | mk l =>
      cases l with
      | nil => rfl
      | cons a tl => simp at h

theorem drop_takeWhile_length (P : Char → Bool) (l : List Char) :
    l.drop (l.takeWhile P).length = l.dropWhile P := by
  induction l with
  | nil => rfl
  | cons a tl ih =>
      by_cases h : P a
      · simp [List.takeWhile_cons, List.dropWhile_cons, h, ih]
      · simp [List.takeWhile_cons, List.dropWhile_cons, h]

theorem string_mk_append_underscore (a b : List Char) :
    (⟨a⟩ : String) ++ "_" ++ (⟨b⟩ : String) = ⟨a ++ '_' :: b⟩ := by
  show String.mk ((a ++ ['_']) ++ b) = String.mk (a ++ '_' :: b)
  exact congrArg String.mk (by simp)

theorem arkNameFromString_decomp (p : String) (d : List Char)
    (hp : p ≠ "") (hd : d ≠ []) (hdig : ∀ c ∈ d, c.isDigit = true) :
    arkNameFromString (p ++ "_" ++ ⟨d⟩) = ⟨p, digitsToNat d + 1⟩ := by
  have hdata : (p ++ "_" ++ (⟨d⟩ : String)).data = p.data ++ '_' :: d := by
    cases p with
    | mk l => simp [String.append]
  have hne : (p ++ "_" ++ (⟨d⟩ : String)) ≠ "" := by
    intro hcontra
    have h2 := congrArg String.data hcontra
    rw [hdata] at h2
    simp at h2
  have hrev : (p ++ "_" ++ (⟨d⟩ : String)).toList.reverse =
      d.reverse ++ '_' :: p.data.reverse := by
    show (p ++ "_" ++ (⟨d⟩ : String)).data.reverse = _
    rw [hdata]
    simp
  unfold arkNameFromString
  rw [if_neg hne]
  rw [hrev]
  have htw : List.takeWhile (fun c => c.isDigit) (d.reverse ++ '_' :: p.data.reverse) =
      d.reverse :=
    takeWhile_all_append _ _ _ (fun x hx => hdig x (by simpa using hx)) (by decide)
  simp only [htw, List.drop_left]
  rw [if_neg (by
    simp only [List.isEmpty_eq_true, List.reverse_eq_nil_iff, not_or]
    exact ⟨hd, string_data_ne_nil hp⟩)]
  rw [List.reverse_reverse, List.reverse_reverse]

/-- Inversion of `arkNameFromString`: either the regex failed and the
result is `(s, 0)`, or `s` splits at the last underscore before a
non-empty all-digit suffix. -/
theorem arkNameFromString_shape (s : String) :
    arkNameFromString s = ⟨s, 0⟩ ∨
    ∃ (p : String) (d : List Char), p ≠ "" ∧ d ≠ [] ∧ (∀ c ∈ d, c.isDigit = true) ∧
      s = p ++ "_" ++ ⟨d⟩ ∧ arkNameFromString s = ⟨p, digitsToNat d + 1⟩ := by
  by_cases hs0 : s = ""
  · left
    subst hs0
    rfl
  · have hdropEq := drop_takeWhile_length (fun c : Char => c.isDigit) s.toList.reverse
    have hsplit := List.takeWhile_append_dropWhile
      (p := fun c : Char => c.isDigit) (l := s.toList.reverse)
    rcases hdw : List.dropWhile (fun c : Char => c.isDigit) s.toList.reverse with
      _ | ⟨c, restRev⟩
    · left
      unfold arkNameFromString
      rw [if_neg hs0]
      simp only [hdropEq, hdw]
    · by_cases hc : c = '_'
      · subst hc
        by_cases hempty : (List.takeWhile (fun c : Char => c.isDigit)
            s.toList.reverse).isEmpty = true ∨ restRev.isEmpty = true
        · left
          unfold arkNameFromString
          rw [if_neg hs0]
          simp only [hdropEq, hdw]
          rw [if_pos hempty]
        · right
          refine ⟨⟨restRev.reverse⟩,
            (List.takeWhile (fun c : Char => c.isDigit) s.toList.reverse).reverse,
            ?_, ?_, ?_, ?_, ?_⟩
          · simp only [not_or, List.isEmpty_eq_true] at hempty
            intro hcon
            have h3 := congrArg String.data hcon
            simp at h3
            exact hempty.2 (by simp [h3])
          · simp only [not_or, List.isEmpty_eq_true] at hempty
            intro hcon
            rw [List.reverse_eq_nil_iff] at hcon
            exact hempty.1 hcon
          · intro x hx
            rw [List.mem_reverse] at hx
            exact List.mem_takeWhile_imp hx
          · have hlist : s.toList.reverse =
                List.takeWhile (fun c : Char => c.isDigit) s.toList.reverse ++
                  '_' :: restRev := by
              conv_lhs => rw [← hsplit]
              rw [hdw]
            have hdata2 : s.data = restRev.reverse ++ '_' ::
                (List.takeWhile (fun c : Char => c.isDigit) s.toList.reverse).reverse := by
              have h4 := congrArg List.reverse hlist
              rw [show s.toList.reverse.reverse = s.data by simp [String.toList]] at h4
              rw [h4]
              simp
            rw [string_mk_append_underscore]
            exact congrArg String.mk hdata2
          · unfold arkNameFromString
            rw [if_neg hs0]
            simp only [hdropEq, hdw]
            rw [if_neg hempty]
      · left
        unfold arkNameFromString
        rw [if_neg hs0]
        simp only [hdropEq, hdw]
        split
        · rename_i heq
          exact absurd (by injection heq : c = '_') hc
        · rfl

/-- C5.  `ArkName` parse/format laws (`ArkName.from_string`,
`ArkName.__str__`): the textual form is the base string for instance 0
and `base_"(instance-1)"` for a positive instance; a string ending in an
underscore followed by a (maximal) non-empty digit run `D` with a
non-empty prefix parses to `(prefix, D+1)`; any other string parses to
`(whole, 0)`; and parse-then-format is idempotent:
`format (parse (format (parse s))) = format (parse s)` for every
string. -/
theorem ark_name_laws :
    (∀ a : ArkName, a.inst = 0 → arkNameToString a = a.name) ∧
    (∀ a : ArkName, 0 < a.inst →
      arkNameToString a = a.name ++ "_" ++ natRepr (a.inst - 1)) ∧
    (∀ (p : String) (d : List Char), p ≠ "" → d ≠ [] →
      (∀ c ∈ d, c.isDigit = true) →
      arkNameFromString (p ++ "_" ++ ⟨d⟩) = ⟨p, digitsToNat d + 1⟩) ∧
    (∀ s : String,
      (¬ ∃ (p : String) (d : List Char), p ≠ "" ∧ d ≠ [] ∧
        (∀ c ∈ d, c.isDigit = true) ∧ s = p ++ "_" ++ ⟨d⟩) →
      arkNameFromString s = ⟨s, 0⟩) ∧
    (∀ s : String,
      arkNameToString (arkNameFromString (arkNameToString (arkNameFromString s))) =
        arkNameToString (arkNameFromString s)) := by
  have hfmt0 : ∀ s : String, arkNameToString ⟨s, 0⟩ = s := by
    intro s
    unfold arkNameToString
    rfl
  have key : ∀ s : String,
      arkNameFromString (arkNameToString (arkNameFromString s)) = arkNameFromString s := by
    intro s
    rcases arkNameFromString_shape s with h | ⟨p, d, hp, hd, hdig, hs, hres⟩
    · rw [h, hfmt0, h]
    · rw [hres]
      have hfmt : arkNameToString ⟨p, digitsToNat d + 1⟩ =
          p ++ "_" ++ ⟨natToDigits (digitsToNat d)⟩ := rfl
      rw [hfmt]
      rw [arkNameFromString_decomp p (natToDigits (digitsToNat d)) hp
        (natToDigits_ne_nil _) (natToDigits_digits _)]
      rw [digitsToNat_natToDigits]
  refine ⟨?_, ?_, arkNameFromString_decomp, ?_, ?_⟩
  · intro a h
    unfold arkNameToString
    rw [if_pos h]
  · intro a h
    unfold arkNameToString
    rw [if_neg (by omega)]
  · intro s hno
    rcases arkNameFromString_shape s with h | ⟨p, d, hp, hd, hdig, hs, hres⟩
    · exact h
    · exact absurd ⟨p, d, hp, hd, hdig, hs⟩ hno
  · intro s
    rw [key s]

/-- Witness for C5: `"MyDino_5"` parses to `(MyDino, 6)` and formats
back to `"MyDino_5"`, with every hypothesis discharged concretely. -/
theorem ark_name_laws_witness :
    ("MyDino" : String) ≠ "" ∧ (['5'] : List Char) ≠ [] ∧
    (∀ c ∈ (['5'] : List Char), c.isDigit = true) ∧
    arkNameFromString ("MyDino" ++ "_" ++ ⟨['5']⟩) = ⟨"MyDino", 6⟩ ∧
    arkNameToString ⟨"MyDino", 6⟩ = "MyDino_5" := by
  refine ⟨by decide, by decide, by decide, ?_, ?_⟩
  · have h := ark_name_laws.2.2.1 "MyDino" ['5'] (by decide) (by decide) (by decide)
    exact h.trans (by decide)
  · have h := ark_name_laws.2.1 ⟨"MyDino", 6⟩ (by norm_num)
    exact h.trans (by decide)

theorem peek_head_cond {data : Bytes} {pos : Nat} {rest : Bytes}
    (h : StreamAt data pos rest) :
    ((0 : Int) < remainingI data pos ∧ (peekBytes 1 data pos).headD 1 = 0) ↔
      rest.head? = some 0 := by
  have hlen := h.len
  have hdrop := h.drop_eq
  unfold remainingI peekBytes
  rw [hdrop]
  cases rest with
  | nil =>
      constructor
      · intro hcontra
        have := hcontra.1
        simp at hlen
        omega
      · intro hcontra
        simp at hcontra
  | cons b tl =>
      simp only [List.length_cons] at hlen
      have hone : min 1 (data.length - pos) = 1 := by omega
      rw [hone]
      simp only [List.take_succ_cons, List.take_zero, List.headD_cons, List.head?_cons,
        Option.some.injEq]
      constructor
      · intro hc
        exact hc.2
      · intro hb
        exact ⟨by omega, hb⟩

/-- C4.  Modern (ASA) profile/tribe/cloud object header
(`ArkFile._read_object_header`): for every well-formed header --- a
16-byte GUID, a class-name string, an int32, an int32 name count, that
many name strings, 12 bytes, the stored properties-offset int32, and 4
more bytes --- the object's effective properties offset is the stored
int32 plus one exactly when the file version is at least 7, and the
stored int32 unchanged otherwise (in particular for version 6); the
optional one-byte terminator after the header is consumed exactly when
the version is at least 7 and a next byte exists and is zero, so the
final reader position is the header length plus one in that case and
the header length otherwise. -/
theorem modern_object_header_offset
    (objId version : Int) (guid16 : Bytes) (cls : String) (f1 stored : Int)
    (names : List String) (pad12 pad4 rest : Bytes)
    (hg : guid16.length = 16) (hc : StrEncodable cls)
    (hn : ∀ nm ∈ names, StrEncodable nm)
    (hcnt : (names.length : Int) < 2147483648)
    (h12 : pad12.length = 12) (h4 : pad4.length = 4)
    (hf1lo : -2147483648 ≤ f1) (hf1hi : f1 < 2147483648)
    (hslo : -2147483648 ≤ stored) (hshi : stored < 2147483648) :
    readObjectHeaderAsa objId version
      (guid16 ++ (encStr cls ++ (encI32 f1 ++ (encI32 (names.length : Int) ++
        (encStrList names ++ (pad12 ++ (encI32 stored ++ (pad4 ++ rest)))))))) 0 =
      .ok ({ id := objId, guid := guidStrOfBytes guid16, className := cls,
             names := names,
             propertiesOffset := stored + (if 7 ≤ version then 1 else 0) },
        (if 7 ≤ version ∧ rest.head? = some 0 then
          44 + (cls.length + 5) + (encStrList names).length + 1
         else 44 + (cls.length + 5) + (encStrList names).length)) := by
  set data := guid16 ++ (encStr cls ++ (encI32 f1 ++ (encI32 (names.length : Int) ++
    (encStrList names ++ (pad12 ++ (encI32 stored ++ (pad4 ++ rest))))))) with hdata
  have h0 : StreamAt data 0 (guid16 ++ (encStr cls ++ (encI32 f1 ++
      (encI32 (names.length : Int) ++ (encStrList names ++ (pad12 ++
        (encI32 stored ++ (pad4 ++ rest)))))))) := ⟨rfl, Nat.zero_le _⟩
  have h1 := readGuidStr_stream h0 hg
  have hs1 := h0.step hg
  have h2 := readString_stream hs1 hc
  have hs2 := hs1.step (encStr_length cls)
  have h3 := readI32_stream hs2 hf1lo hf1hi
  have hs3 := hs2.step (encI32_length f1)
  have h4i := readI32_stream hs3 (by omega) hcnt
  have hs4 := hs3.step (encI32_length (names.length : Int))
  have h5 := readStringsLoop_stream hs4 hn
  have hs5 := hs4.step (rfl : (encStrList names).length = (encStrList names).length)
  have h6 : skipR 12 data (0 + 16 + (cls.length + 5) + 4 + 4 + (encStrList names).length) =
      .ok ((), 0 + 16 + (cls.length + 5) + 4 + 4 + (encStrList names).length +
        ((12 : Int)).toNat) :=
    skipR_nonneg (by norm_num)
  have hs6 := hs5.step h12
  have h7 := readI32_stream hs6 hslo hshi
  have hs7 := hs6.step (encI32_length stored)
  have h8 : skipR 4 data
      (0 + 16 + (cls.length + 5) + 4 + 4 + (encStrList names).length + 12 + 4) =
      .ok ((), 0 + 16 + (cls.length + 5) + 4 + 4 + (encStrList names).length + 12 + 4 +
        ((4 : Int)).toNat) :=
    skipR_nonneg (by norm_num)
  have hs8 := hs7.step h4
  have hcond := peek_head_cond hs8
  have ht12 : ((12 : Int)).toNat = 12 := rfl
  have ht4 : ((4 : Int)).toNat = 4 := rfl
  unfold readObjectHeaderAsa
  rw [h1, ok_bind]
  dsimp only
  rw [h2, ok_bind]
  dsimp only
  rw [h3, ok_bind]
  dsimp only
  rw [h4i, ok_bind]
  dsimp only
  rw [Int.toNat_ofNat]
  rw [h5, ok_bind]
  dsimp only
  rw [h6, ok_bind]
  dsimp only
  rw [ht12]
  rw [h7, ok_bind]
  dsimp only
  rw [h8, ok_bind]
  dsimp only
  rw [ht4]
  rw [if_congr (and_congr_right fun _ => hcond) rfl rfl]
  have harith : 0 + 16 + (cls.length + 5) + 4 + 4 + (encStrList names).length
      + 12 + 4 + 4 = 44 + (cls.length + 5) + (encStrList names).length := by omega
  rw [harith]

theorem modern_object_header_offset_witness :
    readObjectHeaderAsa 1 7 ((List.replicate 16 0) ++ (encStr "C" ++ (encI32 0 ++
        (encI32 ((([] : List String)).length : Int) ++ (encStrList [] ++
          ((List.replicate 12 0) ++ (encI32 10 ++ ((List.replicate 4 0) ++ [0])))))))) 0 =
      .ok ({ id := 1, guid := "00000000-0000-0000-0000-000000000000", className := "C",
             names := ([] : List String), propertiesOffset := 11 }, 51) ∧
    readObjectHeaderAsa 1 6 ((List.replicate 16 0) ++ (encStr "C" ++ (encI32 0 ++
        (encI32 ((([] : List String)).length : Int) ++ (encStrList [] ++
          ((List.replicate 12 0) ++ (encI32 10 ++ ((List.replicate 4 0) ++ [0])))))))) 0 =
      .ok ({ id := 1, guid := "00000000-0000-0000-0000-000000000000", className := "C",
             names := ([] : List String), propertiesOffset := 10 }, 50) := by
  constructor
  · have h := modern_object_header_offset 1 7 (List.replicate 16 0) "C" 0 10 []
      (List.replicate 12 0) (List.replicate 4 0) [0] (by decide)
      (by constructor
          · intro c hcmem
            simp at hcmem
            subst hcmem
            decide
          · decide)
      (by intro nm hnm; simp at hnm) (by decide) (by decide) (by decide)
      (by decide) (by decide) (by decide) (by decide)
    exact h.trans (by norm_num; exact ⟨rfl, rfl⟩)
  · have h := modern_object_header_offset 1 6 (List.replicate 16 0) "C" 0 10 []
      (List.replicate 12 0) (List.replicate 4 0) [0] (by decide)
      (by constructor
          · intro c hcmem
            simp at hcmem
            subst hcmem
            decide
          · decide)
      (by intro nm hnm; simp at hnm) (by decide) (by decide) (by decide)
      (by decide) (by decide) (by decide) (by decide)
    exact h.trans (by norm_num; exact ⟨rfl, rfl⟩)


theorem readPrimitiveProp_name {rv : Bytes → Nat → Except DErr (PVal × Nat)}
    {tn : String} {hdr : PropertyHeader} {isAsa ws : Bool} {data : Bytes}
    {pos : Nat} {pr : PVal} {p' : Nat}
    (h : readPrimitiveProp rv tn hdr isAsa ws data pos = .ok (pr, p')) :
    pvalPropName pr = some hdr.name := by
  unfold readPrimitiveProp at h
  repeat
    any_goals
      first
        | (split at h)
        | (rw [except_bind_ok] at h)
        | (obtain ⟨⟨a, b⟩, -, h⟩ := h)
        | (obtain ⟨⟨⟨a1, a2, a3⟩, b⟩, -, h⟩ := h)
        | (dsimp only at h)
        | (cases h)
        | rfl

theorem readBoolProp_name {hdr : PropertyHeader} {isAsa ws : Bool} {data : Bytes}
    {pos : Nat} {pr : PVal} {p' : Nat}
    (h : readBoolProp hdr isAsa ws data pos = .ok (pr, p')) :
    pvalPropName pr = some hdr.name := by
  unfold readBoolProp at h
  repeat
    any_goals
      first
        | (split at h)
        | (rw [except_bind_ok] at h)
        | (obtain ⟨⟨a, b⟩, -, h⟩ := h)
        | (obtain ⟨⟨⟨a1, a2, a3⟩, b⟩, -, h⟩ := h)
        | (dsimp only at h)
        | (cases h)
        | rfl


theorem readNameProp_name {hdr : PropertyHeader} {isAsa ws : Bool} {nt : NameTable}
    {data : Bytes} {pos : Nat} {pr : PVal} {p' : Nat}
    (h : readNameProp hdr isAsa ws nt data pos = .ok (pr, p')) :
    pvalPropName pr = some hdr.name := by
  unfold readNameProp at h
  repeat
    any_goals
      first
        | (split at h)
        | (rw [except_bind_ok] at h)
        | (obtain ⟨⟨a, b⟩, -, h⟩ := h)
        | (obtain ⟨⟨⟨a1, a2, a3⟩, b⟩, -, h⟩ := h)
        | (dsimp only at h)
        | (cases h)
        | rfl

theorem readObjectProp_name {hdr : PropertyHeader} {isAsa ws : Bool} {nt : NameTable}
    {data : Bytes} {pos : Nat} {pr : PVal} {p' : Nat}
    (h : readObjectProp hdr isAsa ws nt data pos = .ok (pr, p')) :
    pvalPropName pr = some hdr.name := by
  unfold readObjectProp at h
  repeat
    any_goals
      first
        | (split at h)
        | (rw [except_bind_ok] at h)
        | (obtain ⟨⟨a, b⟩, -, h⟩ := h)
        | (obtain ⟨⟨⟨a1, a2, a3⟩, b⟩, -, h⟩ := h)
        | (dsimp only at h)
        | (cases h)
        | rfl

theorem readSoftObjectProp_name {hdr : PropertyHeader} {isAsa ws : Bool} {nt : NameTable}
    {data : Bytes} {pos : Nat} {pr : PVal} {p' : Nat}
    (h : readSoftObjectProp hdr isAsa ws nt data pos = .ok (pr, p')) :
    pvalPropName pr = some hdr.name := by
  unfold readSoftObjectProp at h
  repeat
    any_goals
      first
        | (split at h)
        | (rw [except_bind_ok] at h)
        | (obtain ⟨⟨a, b⟩, -, h⟩ := h)
        | (obtain ⟨⟨⟨a1, a2, a3⟩, b⟩, -, h⟩ := h)
        | (dsimp only at h)
        | (cases h)
        | rfl

theorem readByteProp_name {hdr : PropertyHeader} {isAsa ws : Bool} {nt : NameTable}
    {data : Bytes} {pos : Nat} {pr : PVal} {p' : Nat}
    (h : readByteProp hdr isAsa ws nt data pos = .ok (pr, p')) :
    pvalPropName pr = some hdr.name := by
  unfold readByteProp at h
  repeat
    any_goals
      first
        | (split at h)
        | (rw [except_bind_ok] at h)
        | (obtain ⟨⟨a, b⟩, -, h⟩ := h)
        | (obtain ⟨⟨⟨a1, a2, a3⟩, b⟩, -, h⟩ := h)
        | (dsimp only at h)
        | (cases h)
        | rfl


theorem readWorldsaveArray_name {fuel : Nat} {hdr : PropertyHeader} {nt : NameTable}
    {data : Bytes} {pos : Nat} {pr : PVal} {p' : Nat}
    (h : readWorldsaveArray fuel hdr nt data pos = .ok (pr, p')) :
    pvalPropName pr = some hdr.name := by
  cases fuel with
  | zero => exact Except.noConfusion h
  | succ k =>
      unfold readWorldsaveArray decodeStep readWorldsaveArrayCore at h
      repeat
        any_goals
          first
            | (split at h)
            | (rw [except_bind_ok] at h)
            | (obtain ⟨⟨a, b⟩, -, h⟩ := h)
            | (obtain ⟨⟨⟨a1, a2, a3⟩, b⟩, -, h⟩ := h)
            | (dsimp only at h)
            | (cases h)
            | rfl

theorem readArrayProp_name {fuel : Nat} {hdr : PropertyHeader} {isAsa : Bool}
    {nt : NameTable} {ws : Bool} {data : Bytes} {pos : Nat} {pr : PVal} {p' : Nat}
    (h : readArrayProp fuel hdr isAsa nt ws data pos = .ok (pr, p')) :
    pvalPropName pr = some hdr.name := by
  cases fuel with
  | zero => exact Except.noConfusion h
  | succ k =>
      unfold readArrayProp decodeStep readArrayPropCore at h
      repeat
        any_goals
          first
            | (split at h)
            | (rw [except_bind_ok] at h)
            | (obtain ⟨⟨a, b⟩, -, h⟩ := h)
            | (obtain ⟨⟨⟨a1, a2, a3⟩, b⟩, -, h⟩ := h)
            | (dsimp only at h)
            | (cases h)
            | rfl
      all_goals exact readWorldsaveArray_name h

theorem readWorldsaveStruct_name {fuel : Nat} {hdr : PropertyHeader} {nt : NameTable}
    {data : Bytes} {pos : Nat} {pr : PVal} {p' : Nat}
    (h : readWorldsaveStruct fuel hdr nt data pos = .ok (pr, p')) :
    pvalPropName pr = some hdr.name := by
  cases fuel with
  | zero => exact Except.noConfusion h
  | succ k =>
      unfold readWorldsaveStruct decodeStep readWorldsaveStructCore at h
      repeat
        any_goals
          first
            | (split at h)
            | (rw [except_bind_ok] at h)
            | (obtain ⟨⟨a, b⟩, -, h⟩ := h)
            | (obtain ⟨⟨⟨a1, a2, a3⟩, b⟩, -, h⟩ := h)
            | (dsimp only at h)
            | (cases h)
            | rfl

theorem readStructProp_name {fuel : Nat} {hdr : PropertyHeader} {isAsa : Bool}
    {nt : NameTable} {ws : Bool} {data : Bytes} {pos : Nat} {pr : PVal} {p' : Nat}
    (h : readStructProp fuel hdr isAsa nt ws data pos = .ok (pr, p')) :
    pvalPropName pr = some hdr.name := by
  cases fuel with
  | zero => exact Except.noConfusion h
  | succ k =>
      unfold readStructProp decodeStep readStructPropCore at h
      repeat
        any_goals
          first
            | (split at h)
            | (rw [except_bind_ok] at h)
            | (obtain ⟨⟨a, b⟩, -, h⟩ := h)
            | (obtain ⟨⟨⟨a1, a2, a3⟩, b⟩, -, h⟩ := h)
            | (dsimp only at h)
            | (cases h)
            | rfl
      all_goals exact readWorldsaveStruct_name h

theorem readWorldsaveMap_name {fuel : Nat} {hdr : PropertyHeader} {nt : NameTable}
    {data : Bytes} {pos : Nat} {pr : PVal} {p' : Nat}
    (h : readWorldsaveMap fuel hdr nt data pos = .ok (pr, p')) :
    pvalPropName pr = some hdr.name := by
  cases fuel with
  | zero => exact Except.noConfusion h
  | succ k =>
      unfold readWorldsaveMap decodeStep readWorldsaveMapCore at h
      repeat
        any_goals
          first
            | (split at h)
            | (rw [except_bind_ok] at h)
            | (obtain ⟨⟨a, b⟩, -, h⟩ := h)
            | (obtain ⟨⟨⟨a1, a2, a3⟩, b⟩, -, h⟩ := h)
            | (dsimp only at h)
            | (cases h)
            | rfl

theorem readMapProp_name {fuel : Nat} {hdr : PropertyHeader} {isAsa : Bool}
    {nt : NameTable} {ws : Bool} {data : Bytes} {pos : Nat} {pr : PVal} {p' : Nat}
    (h : readMapProp fuel hdr isAsa nt ws data pos = .ok (pr, p')) :
    pvalPropName pr = some hdr.name := by
  cases fuel with
  | zero => exact Except.noConfusion h
  | succ k =>
      unfold readMapProp decodeStep readMapPropCore at h
      repeat
        any_goals
          first
            | (split at h)
            | (rw [except_bind_ok] at h)
            | (obtain ⟨⟨a, b⟩, -, h⟩ := h)
            | (obtain ⟨⟨⟨a1, a2, a3⟩, b⟩, -, h⟩ := h)
            | (dsimp only at h)
            | (cases h)
            | rfl
      all_goals exact readWorldsaveMap_name h


theorem readPropValue_name {fuel : Nat} {tn : String} {hdr : PropertyHeader}
    {isAsa : Bool} {nt : NameTable} {ws : Bool} {data : Bytes} {pos : Nat}
    {pr : PVal} {p' : Nat}
    (h : readPropValue fuel tn hdr isAsa nt ws data pos = .ok (pr, p')) :
    pvalPropName pr = some hdr.name := by
  cases fuel with
  | zero => exact Except.noConfusion h
  | succ k =>
      unfold readPropValue decodeStep readPropValueCore at h
      dsimp only at h
      split at h
      · exact readPrimitiveProp_name h
      · exact readPrimitiveProp_name h
      · exact readPrimitiveProp_name h
      · exact readPrimitiveProp_name h
      · exact readPrimitiveProp_name h
      · exact readPrimitiveProp_name h
      · exact readPrimitiveProp_name h
      · exact readPrimitiveProp_name h
      · exact readPrimitiveProp_name h
      · exact readBoolProp_name h
      · exact readPrimitiveProp_name h
      · exact readNameProp_name h
      · exact readObjectProp_name h
      · exact readSoftObjectProp_name h
      · exact readByteProp_name h
      · exact readArrayProp_name h
      · exact readStructProp_name h
      · exact readMapProp_name h
      · exact Except.noConfusion h


theorem readI32_pos {data : Bytes} {pos : Nat} {v : Int} {p' : Nat}
    (h : readI32 data pos = .ok (v, p')) : p' = pos + 4 := by
  unfold readI32 readULE readExact at h
  split at h
  · simp [Except.map] at h
    exact h.2.symm
  · simp [Except.map] at h

theorem readPropertyHeader_some {isAsa : Bool} {nt : NameTable} {ws : Bool}
    {data : Bytes} {pos : Nat} {hdr : PropertyHeader} {p' : Nat}
    (h : readPropertyHeader isAsa nt ws data pos = .ok (some hdr, p')) :
    hdr.name ≠ "None" ∧ (ws = false → hdr.name ≠ "") := by
  cases ws with
  | false =>
      unfold readPropertyHeader at h
      rw [if_neg (by simp)] at h
      rw [except_bind_ok] at h
      obtain ⟨⟨nm, p1⟩, -, h⟩ := h
      dsimp only at h
      split at h
      · cases h
      · rename_i hcond
        rw [except_bind_ok] at h
        obtain ⟨⟨tnm, p2⟩, -, h⟩ := h
        dsimp only at h
        rw [except_bind_ok] at h
        obtain ⟨⟨ds, p3⟩, -, h⟩ := h
        dsimp only at h
        rw [except_bind_ok] at h
        obtain ⟨⟨idx, p4⟩, -, h⟩ := h
        dsimp only at h
        cases h
        push_neg at hcond
        exact ⟨hcond.1, fun _ => hcond.2⟩
  | true =>
      unfold readPropertyHeader at h
      rw [if_pos rfl] at h
      cases nt with
      | inline => cases h
      | list t => cases h
      | dict t =>
          unfold readWorldsavePropertyHeader at h
          rw [except_bind_ok] at h
          obtain ⟨⟨nid, p1⟩, -, h⟩ := h
          dsimp only at h
          rw [except_bind_ok] at h
          obtain ⟨⟨ninst, p2⟩, -, h⟩ := h
          dsimp only at h
          split at h
          · cases h
          · rename_i hname
            rw [except_bind_ok] at h
            obtain ⟨⟨tid, p3⟩, -, h⟩ := h
            dsimp only at h
            rw [except_bind_ok] at h
            obtain ⟨⟨tinst, p4⟩, -, h⟩ := h
            dsimp only at h
            cases h
            exact ⟨hname, fun hf => Bool.noConfusion hf⟩

theorem readPropertyHeader_none {isAsa : Bool} {nt : NameTable} {ws : Bool}
    {data : Bytes} {pos : Nat} {p' : Nat}
    (h : readPropertyHeader isAsa nt ws data pos = .ok (none, p')) :
    (ws = false → ∃ nm, readName nt data pos = .ok (nm, p') ∧ (nm = "None" ∨ nm = "")) ∧
    (ws = true → p' = pos + 8) := by
  cases ws with
  | false =>
      unfold readPropertyHeader at h
      rw [if_neg (by simp)] at h
      rw [except_bind_ok] at h
      obtain ⟨⟨nm, p1⟩, hname, h⟩ := h
      dsimp only at h
      split at h
      · rename_i hcond
        cases h
        exact ⟨fun _ => ⟨nm, hname, hcond⟩, fun hf => Bool.noConfusion hf⟩
      · rw [except_bind_ok] at h
        obtain ⟨⟨tnm, p2⟩, -, h⟩ := h
        dsimp only at h
        rw [except_bind_ok] at h
        obtain ⟨⟨ds, p3⟩, -, h⟩ := h
        dsimp only at h
        rw [except_bind_ok] at h
        obtain ⟨⟨idx, p4⟩, -, h⟩ := h
        dsimp only at h
        cases h
  | true =>
      unfold readPropertyHeader at h
      rw [if_pos rfl] at h
      cases nt with
      | inline => cases h
      | list t => cases h
      | dict t =>
          unfold readWorldsavePropertyHeader at h
          rw [except_bind_ok] at h
          obtain ⟨⟨nid, p1⟩, h1, h⟩ := h
          dsimp only at h
          rw [except_bind_ok] at h
          obtain ⟨⟨ninst, p2⟩, h2, h⟩ := h
          dsimp only at h
          split at h
          · cases h
            refine ⟨fun hf => Bool.noConfusion hf, fun _ => ?_⟩
            rw [readI32_pos h2, readI32_pos h1]
          · rw [except_bind_ok] at h
            obtain ⟨⟨tid, p3⟩, -, h⟩ := h
            dsimp only at h
            rw [except_bind_ok] at h
            obtain ⟨⟨tinst, p4⟩, -, h⟩ := h
            dsimp only at h
            cases h

theorem readProperty_spec {fuel : Nat} {isAsa : Bool} {nt : NameTable} {ws : Bool}
    {data : Bytes} {pos : Nat} {r : Option PVal} {p' : Nat}
    (h : readProperty fuel isAsa nt ws data pos = .ok (r, p')) :
    (r = none → readPropertyHeader isAsa nt ws data pos = .ok (none, p')) ∧
    (∀ pr, r = some pr →
      ∃ nm, pvalPropName pr = some nm ∧ nm ≠ "None" ∧ (ws = false → nm ≠ "")) := by
  cases fuel with
  | zero => exact Except.noConfusion h
  | succ k =>
      unfold readProperty decodeStep readPropertyCore at h
      dsimp only at h
      rw [except_bind_ok] at h
      obtain ⟨⟨hdr?, p1⟩, hH, h⟩ := h
      dsimp only at h
      cases hdr? with
      | none =>
          cases h
          exact ⟨fun _ => hH, fun pr hpr => Option.noConfusion hpr⟩
      | some hdr =>
          rw [except_bind_ok] at h
          obtain ⟨⟨pr0, p2⟩, hV, h⟩ := h
          dsimp only at h
          cases h
          refine ⟨fun hc => Option.noConfusion hc, fun pr hpr => ?_⟩
          cases hpr
          have hname := readPropValue_name hV
          have hhdr := readPropertyHeader_some hH
          exact ⟨hdr.name, hname, hhdr.1, hhdr.2⟩

theorem readProperties_spec {isAsa : Bool} {nt : NameTable} {ws : Bool} {data : Bytes} :
    ∀ {fuel pos props pos'},
    readProperties fuel isAsa nt ws data pos = .ok (props, pos') →
    (∀ pr ∈ props, ∃ nm, pvalPropName pr = some nm ∧ nm ≠ "None" ∧
      (ws = false → nm ≠ "")) ∧
    ∃ sp, readPropertyHeader isAsa nt ws data sp = .ok (none, pos') := by
  intro fuel
  induction fuel with
  | zero => intro pos props pos' h; exact Except.noConfusion h
  | succ k ih =>
      intro pos props pos' h
      unfold readProperties decodeStep readPropertiesCore at h
      dsimp only at h
      rw [except_bind_ok] at h
      obtain ⟨⟨pr?, p1⟩, hP, h⟩ := h
      dsimp only at h
      have hP2 : readProperty k isAsa nt ws data pos = .ok (pr?, p1) := hP
      have hspec := readProperty_spec hP2
      cases pr? with
      | none =>
          cases h
          exact ⟨by simp, ⟨pos, hspec.1 rfl⟩⟩
      | some pr =>
          rw [except_bind_ok] at h
          obtain ⟨⟨rest, p2⟩, hR, h⟩ := h
          dsimp only at h
          cases h
          obtain ⟨hAll, hTerm⟩ := ih hR
          refine ⟨?_, hTerm⟩
          intro q hq
          rcases List.mem_cons.mp hq with hq1 | hq2
          · subst hq1
            exact hspec.2 q rfl
          · exact hAll q hq2


/-- C1.  Sentinel property (`read_properties` / `read_property_header`):
whenever `read_properties` succeeds --- i.e. on every byte sequence that
is a valid property list followed by a terminating sentinel header ---
the decoded list contains no property named `"None"` (the sentinel is
never emitted), and the final reader position is exactly the position
after the sentinel: some header read starting at a position `sp` returns
the terminator and ends at the final position, where in the string
framings the sentinel is a name reading `"None"` (or the empty string)
ending at the final position, and in the world-save framing the sentinel
is the 8-byte `(name id, instance)` pair. -/
theorem property_list_none_sentinel
    (fuel : Nat) (isAsa : Bool) (nt : NameTable) (ws : Bool) (data : Bytes)
    (pos : Nat) (props : List PVal) (pos' : Nat)
    (h : readProperties fuel isAsa nt ws data pos = .ok (props, pos')) :
    (∀ pr ∈ props, pvalPropName pr ≠ some "None") ∧
    ∃ sp, readPropertyHeader isAsa nt ws data sp = .ok (none, pos') ∧
      (ws = false → ∃ nm, readName nt data sp = .ok (nm, pos') ∧
        (nm = "None" ∨ nm = "")) ∧
      (ws = true → pos' = sp + 8) := by
  obtain ⟨hAll, sp, hsp⟩ := readProperties_spec h
  refine ⟨?_, sp, hsp, (readPropertyHeader_none hsp).1, (readPropertyHeader_none hsp).2⟩
  intro pr hpr hcon
  obtain ⟨nm, hnm, hne, -⟩ := hAll pr hpr
  rw [hnm] at hcon
  exact hne (by injection hcon)

theorem property_list_none_sentinel_witness :
    readProperties 5 false .inline false demoPropListBytes 0 =
      .ok ([.vProp "Health" "IntProperty" 0 (.vInt 7)], 48) ∧
    ((∀ pr ∈ [PVal.vProp "Health" "IntProperty" 0 (.vInt 7)],
        pvalPropName pr ≠ some "None") ∧
     ∃ sp, readPropertyHeader false .inline false demoPropListBytes sp = .ok (none, 48) ∧
       ((false : Bool) = false → ∃ nm, readName .inline demoPropListBytes sp = .ok (nm, 48) ∧
         (nm = "None" ∨ nm = "")) ∧
       ((false : Bool) = true → 48 = sp + 8)) :=
  ⟨rfl, property_list_none_sentinel 5 false .inline false demoPropListBytes 0
    [.vProp "Health" "IntProperty" 0 (.vInt 7)] 48 rfl⟩


/-- C10.  Empty-name terminator (`read_property_header` /
`read_properties`, Legacy and Modern-string framings): a property header
whose name reads as the empty string is treated as the list terminator
exactly like `"None"`: the header read returns the terminator at the
position right after the name, `read_properties` stops there without
error and emits no property for it, and no successfully decoded property
list in these framings contains a property with an empty name. -/
theorem empty_name_header_terminates
    (fuel fuel2 : Nat) (isAsa : Bool) (nt : NameTable) (data : Bytes)
    (pos p1 q : Nat) (props : List PVal) (pos' : Nat)
    (hnm : readName nt data pos = .ok ("", p1)) :
    readPropertyHeader isAsa nt false data pos = .ok (none, p1) ∧
    readProperties (fuel + 2) isAsa nt false data pos = .ok ([], p1) ∧
    (readProperties fuel2 isAsa nt false data q = .ok (props, pos') →
      ∀ pr ∈ props, pvalPropName pr ≠ some "") := by
  have ha : readPropertyHeader isAsa nt false data pos = .ok (none, p1) := by
    unfold readPropertyHeader
    rw [if_neg (by simp), hnm, ok_bind]
    dsimp only
    rw [if_pos (Or.inr rfl)]
  refine ⟨ha, ?_, ?_⟩
  · have hprop : decodeStep data (fuel + 1) (.prop isAsa nt false pos) =
        .ok (none, p1) := by
      unfold decodeStep readPropertyCore
      dsimp only
      rw [ha, ok_bind]
    show decodeStep data (fuel + 2) (.props isAsa nt false pos) = .ok ([], p1)
    unfold decodeStep readPropertiesCore
    dsimp only
    rw [hprop, ok_bind]
  · intro h pr hpr hcon
    obtain ⟨nm, hnm2, -, hne⟩ := (readProperties_spec h).1 pr hpr
    rw [hnm2] at hcon
    exact hne rfl (by injection hcon)

theorem empty_name_header_terminates_witness :
    readName .inline [0, 0, 0, 0] 0 = .ok ("", 4) ∧
    (readPropertyHeader false .inline false [0, 0, 0, 0] 0 = .ok (none, 4) ∧
     readProperties 2 false .inline false [0, 0, 0, 0] 0 = .ok ([], 4) ∧
     (readProperties 5 false .inline false [0, 0, 0, 0] 0 = .ok ([], 4) →
       ∀ pr ∈ ([] : List PVal), pvalPropName pr ≠ some "")) :=
  ⟨rfl, empty_name_header_terminates 0 5 false .inline [0, 0, 0, 0] 0 4 0 [] 4 rfl⟩


theorem linkStep_parent_other {objs : List GameObject} {st : LinkState}
    {j i : Nat} (hne : i ≠ j) :
    (linkStep objs st j).parent i = st.parent i := by
  unfold linkStep
  split
  · dsimp only
    rw [if_neg hne]
  · rfl

theorem foldl_parent_not_mem {objs : List GameObject} :
    ∀ {l : List Nat} {st : LinkState} {i : Nat}, i ∉ l →
    ((l.foldl (linkStep objs) st).parent i) = st.parent i := by
  intro l
  induction l with
  | nil => intro st i _; rfl
  | cons j rest ih =>
      intro st i hmem
      have hne : i ≠ j := fun hc => hmem (hc ▸ List.mem_cons_self j rest)
      have hrest : i ∉ rest := fun hc => hmem (List.mem_cons_of_mem j hc)
      rw [List.foldl_cons, ih hrest, linkStep_parent_other hne]

theorem foldl_parent_mem {objs : List GameObject} :
    ∀ {l : List Nat} {st : LinkState} {i p : Nat}, i ∈ l →
    linksTo objs i = some p →
    ((l.foldl (linkStep objs) st).parent i) = some p := by
  intro l
  induction l with
  | nil => intro st i p hmem; cases hmem
  | cons j rest ih =>
      intro st i p hmem hlink
      by_cases hrest : i ∈ rest
      · rw [List.foldl_cons, ih hrest hlink]
      · have hij : i = j := by
          rcases List.mem_cons.mp hmem with h1 | h2
          · exact h1
          · exact absurd h2 hrest
        subst hij
        rw [List.foldl_cons, foldl_parent_not_mem hrest]
        unfold linkStep
        rw [hlink]
        dsimp only
        rw [if_pos rfl]

theorem linkStep_comps_other {objs : List GameObject} {st : LinkState}
    {j : Nat} {p : Nat} {key : String}
    (h : ¬ (linksTo objs j = some p ∧ (objs.getD j {}).names.headD "" = key)) :
    (linkStep objs st j).comps p key = st.comps p key := by
  unfold linkStep
  split
  · rename_i q heq
    dsimp only
    rw [if_neg]
    intro hc
    exact h ⟨by rw [heq, hc.1], hc.2.symm⟩
  · rfl

theorem foldl_comps_untouched {objs : List GameObject} :
    ∀ {l : List Nat} {st : LinkState} {p : Nat} {key : String},
    (∀ j ∈ l, ¬ (linksTo objs j = some p ∧ (objs.getD j {}).names.headD "" = key)) →
    ((l.foldl (linkStep objs) st).comps p key) = st.comps p key := by
  intro l
  induction l with
  | nil => intro st p key _; rfl
  | cons j rest ih =>
      intro st p key hnone
      rw [List.foldl_cons, ih (fun q hq => hnone q (List.mem_cons_of_mem j hq)),
        linkStep_comps_other (hnone j (List.mem_cons_self j rest))]

theorem foldl_comps_writer {objs : List GameObject} :
    ∀ {l : List Nat} {st : LinkState} {i p : Nat} {key : String}, i ∈ l →
    linksTo objs i = some p →
    (objs.getD i {}).names.headD "" = key →
    (∀ j ∈ l, j ≠ i →
      ¬ (linksTo objs j = some p ∧ (objs.getD j {}).names.headD "" = key)) →
    ((l.foldl (linkStep objs) st).comps p key) = some i := by
  intro l
  induction l with
  | nil => intro st i p key hmem; cases hmem
  | cons j rest ih =>
      intro st i p key hmem hlink hkey hother
      by_cases hrest : i ∈ rest
      · rw [List.foldl_cons]
        exact ih hrest hlink hkey (fun q hq => hother q (List.mem_cons_of_mem j hq))
      · have hij : i = j := by
          rcases List.mem_cons.mp hmem with h1 | h2
          · exact h1
          · exact absurd h2 hrest
        subst hij
        rw [List.foldl_cons]
        rw [foldl_comps_untouched (fun q hq hc =>
          hother q (List.mem_cons_of_mem i hq) (fun he => hrest (he ▸ hq)) hc)]
        unfold linkStep
        rw [hlink]
        dsimp only
        rw [if_pos ⟨rfl, hkey.symm⟩]


/-- C9 counterexample.  In `c9objsEmpty`, object 1 has two names and the
container holds an object (object 0) whose primary name equals object 1's
last name, yet after `build_relationships` object 1 has no parent and
object 0's components dict is empty, because `add_component` silently
drops components with a falsy (empty) primary name.  In `c9objsDup`,
object 1 is linked (parent 0) but the parent's components entry under its
primary name `"C"` holds object 2, not object 1: a later component with
the same primary name overwrites the dict slot. -/
theorem component_linkage_counterexample :
    (1 < ((c9objsEmpty.getD 1 {}).names).length ∧
     (c9objsEmpty.getD 0 {}).names.headD "" = ((c9objsEmpty.getD 1 {}).names).getLastD "" ∧
     (buildRelationships c9objsEmpty).parent 1 = none ∧
     ∀ k, (buildRelationships c9objsEmpty).comps 0 k = none) ∧
    ((buildRelationships c9objsDup).parent 1 = some 0 ∧
     (buildRelationships c9objsDup).comps 0 "C" = some 2) :=
  ⟨⟨by decide, rfl, rfl, fun _ => rfl⟩, ⟨rfl, rfl⟩⟩

/-- C9 amended.  For every object `i` with at least two names, if the
by-name cache lookup of its last name yields object `p` (the cache keeps
the last object inserted under each truthy primary name) and `i`'s own
primary name is truthy, then after `build_relationships` object `i`'s
parent reference is `p`; and if moreover no other object links to `p`
under the same primary-name key, `p`'s components dict maps `i`'s
primary name to `i`. -/
theorem component_linkage_amended
    (objs : List GameObject) (i p : Nat)
    (hi : i < objs.length)
    (hnames : 1 < ((objs.getD i {}).names).length)
    (hlookup : byNameIdx objs (((objs.getD i {}).names).getLastD "") = some p)
    (hprim : primaryTruthy (objs.getD i {}) = true) :
    (buildRelationships objs).parent i = some p ∧
    ((∀ j, j < objs.length → j ≠ i →
        ¬ (linksTo objs j = some p ∧
           (objs.getD j {}).names.headD "" = (objs.getD i {}).names.headD "")) →
      (buildRelationships objs).comps p ((objs.getD i {}).names.headD "") = some i) := by
  have hlink : linksTo objs i = some p := by
    unfold linksTo
    dsimp only
    rw [if_pos hnames, hlookup]
    dsimp only
    rw [if_pos hprim]
  constructor
  · exact foldl_parent_mem (List.mem_range.mpr hi) hlink
  · intro hother
    exact foldl_comps_writer (List.mem_range.mpr hi) hlink rfl
      (fun j hj hne => hother j (List.mem_range.mp hj) hne)

theorem component_linkage_amended_witness :
    (1 < c9objsOk.length ∧ 1 < ((c9objsOk.getD 1 {}).names).length ∧
     byNameIdx c9objsOk (((c9objsOk.getD 1 {}).names).getLastD "") = some 0 ∧
     primaryTruthy (c9objsOk.getD 1 {}) = true) ∧
    ((buildRelationships c9objsOk).parent 1 = some 0 ∧
     (buildRelationships c9objsOk).comps 0 ((c9objsOk.getD 1 {}).names.headD "") = some 1) := by
  have h := component_linkage_amended c9objsOk 1 0 (by decide) (by decide) rfl rfl
  exact ⟨⟨by decide, by decide, rfl, rfl⟩, h.1, h.2 (by decide)⟩


theorem readAseObjectProperties_errors {fuel : Nat} {pbo : Int} {nt : NameTable}
    {data : Bytes} {errs : List String} :
    ∀ objs, (readAseObjectProperties fuel pbo nt data errs objs).2.2 = errs := by
  intro objs
  induction objs with
  | nil => rfl
  | cons o rest ih =>
      rcases hrec : readAseObjectProperties fuel pbo nt data errs rest with ⟨rs, f, es⟩
      have hes : es = errs := by
        rw [hrec] at ih
        exact ih
      unfold readAseObjectProperties
      rw [hrec]
      dsimp only
      split
      · exact hes
      · exact hes

theorem asaFold_errors_mono {fuel : Nat} {nt : List (Int × String)}
    {locs : String → Option LocationData} :
    ∀ (rows : List (Bytes × Bytes)) (st : AsaDecodeState),
    ∃ suf, (rows.foldl (asaRowStep fuel nt locs) st).parseErrors =
      st.parseErrors ++ suf := by
  intro rows
  induction rows with
  | nil => intro st; exact ⟨[], (List.append_nil _).symm⟩
  | cons r rs ih =>
      intro st
      rw [List.foldl_cons]
      have hstep : ∃ x, (asaRowStep fuel nt locs st r).parseErrors =
          st.parseErrors ++ x := by
        unfold asaRowStep
        dsimp only
        split
        · exact ⟨_, rfl⟩
        · exact ⟨_, rfl⟩
      obtain ⟨x, hx⟩ := hstep
      obtain ⟨suf, hsuf⟩ := ih (asaRowStep fuel nt locs st r)
      exact ⟨x ++ suf, by rw [hsuf, hx, List.append_assoc]⟩

/-- C8 counterexample.  The ASE world-save property pass
(`_read_ase_object_properties`) does not record decode failures in the
file's `parse_errors` list: decoding the default object over an empty
buffer raises (`struct.error` from the first header read), yet the pass
returns the object unchanged with only the local failure counter set to 1
and the error list exactly as it was passed in (empty). -/
theorem worldsave_error_recording_counterexample :
    loadProperties 5 ({} : GameObject) 0 false none .inline [] = .error .structErr ∧
    readAseObjectProperties 5 0 .inline [] [] [({} : GameObject)] =
      ([({} : GameObject)], 1, []) :=
  ⟨rfl, rfl⟩

/-- C8 amended.  (a) In the ASA world-save bulk decode
(`_read_asa_game_objects`), a row whose blob fails to parse appends the
formatted string `"GUID {guid}: {message}"` (a string, not a
`(guid, message)` tuple) to the accumulated `parse_errors` and leaves the
decoded objects unchanged; the loop then continues with the remaining
rows from that state, and the recorded message survives into the final
state's `parse_errors`.  (b) In the ASE world-save property pass, a
failing object only increments a local failure counter: the error list is
returned exactly as passed in.  (c) In the profile/tribe/cloud property
loop, the first `load_properties` failure aborts the whole parse with
that error. -/
theorem worldsave_error_recording_amended
    (fuel : Nat) (nt : List (Int × String)) (locs : String → Option LocationData)
    (st : AsaDecodeState) (row : Bytes × Bytes) (rows : List (Bytes × Bytes))
    (e : DErr)
    (hrow : parseAsaGameObject fuel nt (guidStrOfBytes row.1) row.2 st.objId true =
      .error e)
    (fuel2 : Nat) (pbo : Int) (nt2 : NameTable) (data2 : Bytes)
    (errs : List String) (objs : List GameObject)
    (fuel3 : Nat) (isAsa3 : Bool) (data3 : Bytes) (o : GameObject)
    (rest : List GameObject) (e3 : DErr)
    (hfail3 : loadProperties fuel3 o 0 isAsa3 rest.head? .inline data3 = .error e3) :
    (asaRowStep fuel nt locs st row =
      { st with parseErrors := st.parseErrors ++
          ["GUID " ++ guidStrOfBytes row.1 ++ ": " ++ errString e] }) ∧
    (∃ suf, ((row :: rows).foldl (asaRowStep fuel nt locs) st).parseErrors =
      st.parseErrors ++ ("GUID " ++ guidStrOfBytes row.1 ++ ": " ++ errString e) :: suf) ∧
    ((readAseObjectProperties fuel2 pbo nt2 data2 errs objs).2.2 = errs) ∧
    (arkFileLoadAllProperties fuel3 isAsa3 data3 (o :: rest) = .error e3) := by
  have hstep : asaRowStep fuel nt locs st row =
      { st with parseErrors := st.parseErrors ++
          ["GUID " ++ guidStrOfBytes row.1 ++ ": " ++ errString e] } := by
    unfold asaRowStep
    dsimp only
    rw [hrow]
  refine ⟨hstep, ?_, readAseObjectProperties_errors objs, ?_⟩
  · obtain ⟨suf, hsuf⟩ := asaFold_errors_mono rows (asaRowStep fuel nt locs st row)
    refine ⟨suf, ?_⟩
    rw [List.foldl_cons, hsuf, hstep]
    simp [List.append_assoc]
  · unfold arkFileLoadAllProperties
    rw [hfail3, error_bind]

theorem worldsave_error_recording_amended_witness :
    (asaRowStep 1 [] (fun _ => none) {} ([], []) =
      { parseErrors :=
          [] ++ ["GUID " ++ guidStrOfBytes [] ++ ": " ++ errString .structErr] }) ∧
    (∃ suf, (([([], [])] : List (Bytes × Bytes)).foldl (asaRowStep 1 [] (fun _ => none))
        {}).parseErrors =
      [] ++ ("GUID " ++ guidStrOfBytes [] ++ ": " ++ errString .structErr) :: suf) ∧
    ((readAseObjectProperties 5 0 .inline [] ["earlier"] [({} : GameObject)]).2.2 =
      ["earlier"]) ∧
    (arkFileLoadAllProperties 5 false [] [({} : GameObject)] = .error .structErr) :=
  worldsave_error_recording_amended 1 [] (fun _ => none) {} ([], []) [] .structErr rfl
    5 0 .inline [] ["earlier"] [({} : GameObject)]
    5 false [] ({} : GameObject) [] .structErr rfl

end ArkParser
